import Mathlib

/-!
Shallow embedding of the CRD management core of azure-service-operator
(`v2/internal/crdmanagement/manager.go`) and of the cloud-error envelope
parser (`v2/internal/genericarmclient/cloud_error.go`), with theorems
settling the specification claims about them.

Go maps are embedded as association lists with overwrite-on-insert
semantics; a `nil` Go map (distinct from an empty one) is an `Option`
around the list.  Go zero values become explicit default records.
-/

namespace Crd

/-- Association-list lookup, mirroring Go map indexing (`m[k]`): the first
binding for the key, if any. -/
def mapLookup (m : List (String × α)) (k : String) : Option α :=
  match m with
  | [] => none
  | (k', v) :: rest => if k' = k then some v else mapLookup rest k

/-- Association-list insert with Go map assignment semantics
(`m[k] = v`): replaces the existing binding in place, or appends. -/
def mapInsert (m : List (String × α)) (k : String) (v : α) : List (String × α) :=
  match m with
  | [] => [(k, v)]
  | (k', v') :: rest =>
      if k' = k then (k', v) :: rest else (k', v') :: mapInsert rest k v

/-- Update the binding of `k` in place when present, identity otherwise. -/
def mapUpdate (m : List (String × α)) (k : String) (f : α → α) : List (String × α) :=
  m.map fun kv => if kv.1 = k then (kv.1, f kv.2) else kv

/-- The label the CRDs carry containing the ASO version
(`ServiceOperatorVersionLabel` in manager.go). -/
def ServiceOperatorVersionLabel : String := "app.kubernetes.io/version"

/-- The cert-manager inject-ca-from annotation key rewritten by
`fixCRDNamespace` (its constant in manager.go carries the same value). -/
def certMgrInjectCAFromKey : String := "cert-manager.io/inject-ca-from"

/-- `apiextensions.ServiceReference`: the backing service of a conversion
webhook.  -/
structure ServiceReference where
  namespaceRef : String
  name : String
  path : Option String
  port : Option Int
  deriving DecidableEq, Repr

/-- `apiextensions.WebhookClientConfig`.  The CA bundle (`[]byte`) is
embedded as an optional opaque string. -/
structure WebhookClientConfig where
  url : Option String
  service : Option ServiceReference
  caBundle : Option String
  deriving DecidableEq, Repr

/-- `apiextensions.WebhookConversion`. -/
structure WebhookConversion where
  clientConfig : Option WebhookClientConfig
  conversionReviewVersions : List String
  deriving DecidableEq, Repr

/-- `apiextensions.CustomResourceConversion`. -/
structure CustomResourceConversion where
  strategy : String
  webhook : Option WebhookConversion
  deriving DecidableEq, Repr

/-- `apiextensions.CustomResourceDefinitionSpec`.  Fields whose inner
structure no claim depends on (names, versions, …) are carried as opaque
payloads so that spec equality still ranges over them. -/
structure CustomResourceDefinitionSpec where
  group : String
  names : String
  scope : String
  versions : String
  conversion : Option CustomResourceConversion
  preserveUnknownFields : Bool
  deriving DecidableEq, Repr

/-- `apiextensions.CustomResourceDefinition`.  `labels` and `annotations`
are `Option`al association lists so a `nil` Go map stays distinguishable
from an empty one (VersionEqual branches on exactly that). -/
structure CustomResourceDefinition where
  name : String
  labels : Option (List (String × String))
  annotations : Option (List (String × String))
  spec : CustomResourceDefinitionSpec
  deriving DecidableEq, Repr

/-- The zero value `apiextensions.CustomResourceDefinition{}` that Go map
indexing yields for a missing key in `FindMatchingCRDs`. -/
def defaultCRD : CustomResourceDefinition :=
  { name := ""
    labels := none
    annotations := none
    spec :=
      { group := ""
        names := ""
        scope := ""
        versions := ""
        conversion := none
        preserveUnknownFields := false } }

/-- `ignoreCABundle` from manager.go: nils out
`spec.conversion.webhook.clientConfig.caBundle` when the whole chain is
present. -/
def ignoreCABundle (a : CustomResourceDefinition) : CustomResourceDefinition :=
  match a.spec.conversion with
  | none => a
  | some conv =>
    match conv.webhook with
    | none => a
    | some wh =>
      match wh.clientConfig with
      | none => a
      | some cc =>
          { a with
            spec :=
              { a.spec with
                conversion :=
                  some { conv with
                          webhook :=
                            some { wh with clientConfig := some { cc with caBundle := none } } } } }

/-- `ignoreConversionWebhook` from manager.go: drops the whole webhook
block when present. -/
def ignoreConversionWebhook (a : CustomResourceDefinition) : CustomResourceDefinition :=
  match a.spec.conversion with
  | none => a
  | some conv =>
    match conv.webhook with
    | none => a
    | some _ =>
        { a with
          spec := { a.spec with conversion := some { conv with webhook := none } } }

/-- `SpecEqual` from manager.go: deep equality of the specs after
stripping the CA bundle from both sides. -/
def SpecEqual (a b : CustomResourceDefinition) : Bool :=
  decide ((ignoreCABundle a).spec = (ignoreCABundle b).spec)

/-- `SpecEqualIgnoreConversionWebhook` from manager.go. -/
def SpecEqualIgnoreConversionWebhook (a b : CustomResourceDefinition) : Bool :=
  decide ((ignoreConversionWebhook a).spec = (ignoreConversionWebhook b).spec)

/-- `VersionEqual` from manager.go, line for line: nil-map checks first,
then presence of the version label, then value comparison (where a Go map
read of a missing key yields the zero string). -/
def VersionEqual (a b : CustomResourceDefinition) : Bool :=
  match a.labels, b.labels with
  | none, none => true
  | none, some _ => false
  | some _, none => false
  | some la, some lb =>
      let aVersion := (mapLookup la ServiceOperatorVersionLabel).getD ""
      let aOk := (mapLookup la ServiceOperatorVersionLabel).isSome
      let bVersion := (mapLookup lb ServiceOperatorVersionLabel).getD ""
      let bOk := (mapLookup lb ServiceOperatorVersionLabel).isSome
      if !aOk && !bOk then true
      else decide (aVersion = bVersion)

/-- Whether a CRD carries the version label (its label map is non-nil and
contains the key).  Vocabulary for stating the VersionEqual claims. -/
def carriesVersionLabel (a : CustomResourceDefinition) : Bool :=
  match a.labels with
  | none => false
  | some la => (mapLookup la ServiceOperatorVersionLabel).isSome

/-- The comparator type of `FindMatchingCRDs`. -/
abbrev Comparator := CustomResourceDefinition → CustomResourceDefinition → Bool

/-- The existing-CRD lookup map built at the top of `FindMatchingCRDs`. -/
def buildExistingMap (existing : List CustomResourceDefinition) :
    List (String × CustomResourceDefinition) :=
  existing.foldl (fun m crd => mapInsert m crd.name crd) []

/-- The per-goal-entry comparator loop of `FindMatchingCRDs`: `equal`
starts true and is cleared by the first failing comparator. -/
def allComparatorsHold (comparators : List Comparator)
    (existingCRD goalCRD : CustomResourceDefinition) : Bool :=
  comparators.all fun c => c existingCRD goalCRD

/-- `FindMatchingCRDs` from manager.go: for each goal CRD, look up the
existing CRD of the same name (zero value when absent) and keep the goal
entry when every comparator accepts the pair.  The deep copies before the
comparators run are identities under value semantics (the frame claim
about them is settled separately on a heap model). -/
def FindMatchingCRDs (existing goal : List CustomResourceDefinition)
    (comparators : List Comparator) :
    List (String × CustomResourceDefinition) :=
  let existingCRDs := buildExistingMap existing
  goal.foldl
    (fun matching goalCRD =>
      let existingCRD := (mapLookup existingCRDs goalCRD.name).getD defaultCRD
      if allComparatorsHold comparators existingCRD goalCRD then
        mapInsert matching goalCRD.name goalCRD
      else
        matching)
    []

/-- `FindNonMatchingCRDs` from manager.go: inverts every comparator and
calls `FindMatchingCRDs`. -/
def FindNonMatchingCRDs (existing goal : List CustomResourceDefinition)
    (comparators : List Comparator) :
    List (String × CustomResourceDefinition) :=
  let invertedComparators := comparators.map fun c => fun a b => !c a b
  FindMatchingCRDs existing goal invertedComparators

end Crd

namespace Crd

/-- `FilterResult` of an installation instruction (type lives outside
src/; values taken from the spec and from manager.go's uses:
`Excluded`, `MatchedExistingCRD`, `MatchedPattern`). -/
inductive FilterResult where
  | Excluded
  | MatchedExistingCRD
  | MatchedPattern
  deriving DecidableEq, Repr

/-- `DiffResult` of an installation instruction (type lives outside src/;
values taken from the spec and from manager.go's uses: `NoDifference`,
`VersionDifferent`, `SpecDifferent`). -/
inductive DiffResult where
  | NoDifference
  | VersionDifferent
  | SpecDifferent
  deriving DecidableEq, Repr

/-- `CRDInstallationInstruction` (struct lives outside src/; fields per
the spec: `{Definition, FilterResult, FilterReason, DiffResult}`). -/
structure CRDInstallationInstruction where
  crd : CustomResourceDefinition
  filterResult : FilterResult
  filterReason : String
  diffResult : DiffResult
  deriving DecidableEq, Repr

/-- Modelled from the spec: `ShouldApply` lives outside src/; the spec's
invariant says an instruction is applied iff `FilterResult ≠ Excluded`
and `DiffResult ≠ NoDifference`. -/
def ShouldApply (i : CRDInstallationInstruction) : Bool :=
  decide (i.filterResult ≠ FilterResult.Excluded) &&
    decide (i.diffResult ≠ DiffResult.NoDifference)

/-- Modelled from the spec: `makeMatchString` lives outside src/; the
spec says patterns are evaluated against "a derived match string per
candidate (its qualified resource name)". -/
def makeMatchString (crd : CustomResourceDefinition) : String :=
  crd.name

/-- Glob matching on character lists: `*` matches any run of characters,
anything else matches itself.  Modelled from the spec: the
`match.StringMatcher` package lives outside src/; the spec calls its
semantics "name-based glob/wildcard semantics".  The recursion is
measured by explicit fuel (pattern length + candidate length suffices,
as every step shortens one of the two), keeping evaluation purely
structural. -/
def globMatchChars : Nat → List Char → List Char → Bool
  | 0, _, _ => false
  | _ + 1, [], s => s.isEmpty
  | fuel + 1, p :: ps, s =>
      if p = '*' then
        globMatchChars fuel ps s ||
          (match s with
           | [] => false
           | _ :: cs => globMatchChars fuel (p :: ps) cs)
      else
        match s with
        | [] => false
        | c :: cs => p == c && globMatchChars fuel ps cs

/-- Whether one glob pattern matches one candidate string. -/
def globMatch (pattern s : String) : Bool :=
  globMatchChars (pattern.length + s.length + 1) pattern.toList s.toList

/-- Whether a pattern matches the derived match string of a goal CRD. -/
def patternMatchesCRD (pattern : String) (crd : CustomResourceDefinition) : Bool :=
  globMatch pattern (makeMatchString crd)

/-- The errors `DetermineCRDsToInstallOrUpgrade` can return: the pattern
validation failure from `matcher.WasMatched()`, and the
"Couldn't find goal CRD" internal-consistency failure. -/
inductive PlanError where
  | patternsNotMatched (patterns : List String)
  | goalNotFound (name : String)
  deriving DecidableEq, Repr

/-- The initial instruction seeded for one goal CRD at the top of
`DetermineCRDsToInstallOrUpgrade`: `Excluded`, `NoDifference`. -/
def newInstruction (crd : CustomResourceDefinition) : CRDInstallationInstruction :=
  { crd := crd
    filterResult := FilterResult.Excluded
    filterReason :=
      "\"" ++ makeMatchString crd ++
        "\" was not matched by CRD pattern and did not already exist in cluster"
    diffResult := DiffResult.NoDifference }

/-- The instruction map seeded at the top of
`DetermineCRDsToInstallOrUpgrade`: one entry per goal CRD name, initially
`Excluded` with `NoDifference`. -/
def seedInstructions (goalCRDs : List CustomResourceDefinition) :
    List (String × CRDInstallationInstruction) :=
  goalCRDs.foldl
    (fun m crd => mapInsert m crd.name (newInstruction crd))
    []

/-- The instruction update performed by `filterCRDsByExisting` for one
existing CRD: upgrade to `MatchedExistingCRD` with its reason. -/
def markExisting (crd : CustomResourceDefinition)
    (result : CRDInstallationInstruction) : CRDInstallationInstruction :=
  { result with
    filterResult := FilterResult.MatchedExistingCRD
    filterReason :=
      "A CRD named \"" ++ makeMatchString crd ++
        "\" was already installed, considering that existing CRD for update" }

/-- `filterCRDsByExisting` from manager.go: every existing CRD whose name
has a goal instruction upgrades that instruction to
`MatchedExistingCRD`; existing CRDs without a goal entry are skipped. -/
def filterCRDsByExisting (existingCRDs : List CustomResourceDefinition)
    (resultMap : List (String × CRDInstallationInstruction)) :
    List (String × CRDInstallationInstruction) :=
  existingCRDs.foldl
    (fun m crd => mapUpdate m crd.name (markExisting crd))
    resultMap

/-- The instruction update performed by the pattern pass for one goal
instruction: upgrade to `MatchedPattern` with the first matching pattern
in its reason, identity when no pattern matches. -/
def markByPatterns (patterns : List String)
    (goal : CRDInstallationInstruction) : CRDInstallationInstruction :=
  match patterns.find? (fun p => patternMatchesCRD p goal.crd) with
  | some p =>
      { goal with
        filterResult := FilterResult.MatchedPattern
        filterReason :=
          "CRD named \"" ++ makeMatchString goal.crd ++
            "\" matched pattern \"" ++ p ++ "\"" }
  | none => goal

/-- The patterns of the spec that matched no candidate at all, reported
by the matcher validation (`matcher.WasMatched()`). -/
def unmatchedPatterns (patterns : List String)
    (resultMap : List (String × CRDInstallationInstruction)) : List String :=
  patterns.filter fun p =>
    !(resultMap.any fun kv => patternMatchesCRD p kv.2.crd)

/-- `filterCRDsByPatterns` from manager.go, with the matcher's two-phase
behaviour modelled from the spec (mark every candidate matched by any
pattern, then fail if some pattern matched nothing): an empty pattern
spec returns immediately; otherwise every goal instruction matched by
some pattern becomes `MatchedPattern`, and the call fails when any
pattern matched no candidate. -/
def filterCRDsByPatterns (patterns : List String)
    (resultMap : List (String × CRDInstallationInstruction)) :
    Except PlanError (List (String × CRDInstallationInstruction)) :=
  if patterns.isEmpty then Except.ok resultMap
  else
    let marked := resultMap.map fun kv => (kv.1, markByPatterns patterns kv.2)
    if (unmatchedPatterns patterns resultMap).isEmpty then Except.ok marked
    else Except.error (PlanError.patternsNotMatched (unmatchedPatterns patterns resultMap))

/-- The first three steps of `DetermineCRDsToInstallOrUpgrade`: seed,
existing-CRD pass, pattern pass (in that order). -/
def planMap (goalCRDs existingCRDs : List CustomResourceDefinition)
    (patterns : List String) :
    Except PlanError (List (String × CRDInstallationInstruction)) :=
  filterCRDsByPatterns patterns
    (filterCRDsByExisting existingCRDs (seedInstructions goalCRDs))

/-- The filtered goal CRDs of `DetermineCRDsToInstallOrUpgrade`: the CRDs
of all non-`Excluded` instructions. -/
def filteredGoalCRDs (resultMap : List (String × CRDInstallationInstruction)) :
    List CustomResourceDefinition :=
  (resultMap.filter fun kv =>
    decide (kv.2.filterResult ≠ FilterResult.Excluded)).map fun kv => kv.2.crd

/-- One classification loop of `DetermineCRDsToInstallOrUpgrade`: write
`r` into the instruction of every name in the mismatch set, failing on a
name with no instruction. -/
def setDiffResults (diffs : List (String × CustomResourceDefinition))
    (r : DiffResult) (resultMap : List (String × CRDInstallationInstruction)) :
    Except PlanError (List (String × CRDInstallationInstruction)) :=
  match diffs with
  | [] => Except.ok resultMap
  | (name, _) :: rest =>
      if (mapLookup resultMap name).isSome then
        setDiffResults rest r
          (mapUpdate resultMap name fun result => { result with diffResult := r })
      else Except.error (PlanError.goalNotFound name)

/-- The diff-classification tail of `DetermineCRDsToInstallOrUpgrade`:
compute both mismatch sets over `(existing, filtered)`, then apply
spec-difference first and version-difference second (the source's loop
order), so version-difference overwrites. -/
def applyDiffs (existingCRDs : List CustomResourceDefinition)
    (resultMap : List (String × CRDInstallationInstruction)) :
    Except PlanError (List (String × CRDInstallationInstruction)) := do
  let filtered := filteredGoalCRDs resultMap
  let goalCRDsWithDifferentVersion := FindNonMatchingCRDs existingCRDs filtered [VersionEqual]
  let goalCRDsWithDifferentSpec := FindNonMatchingCRDs existingCRDs filtered [SpecEqual]
  let m1 ← setDiffResults goalCRDsWithDifferentSpec DiffResult.SpecDifferent resultMap
  setDiffResults goalCRDsWithDifferentVersion DiffResult.VersionDifferent m1

/-- `DetermineCRDsToInstallOrUpgrade` from manager.go: seed one
instruction per goal name, run the existing pass then the pattern pass,
classify differences, and collapse the map to its values. -/
def DetermineCRDsToInstallOrUpgrade (goalCRDs existingCRDs : List CustomResourceDefinition)
    (patterns : List String) :
    Except PlanError (List CRDInstallationInstruction) := do
  let m ← planMap goalCRDs existingCRDs patterns
  let finalMap ← applyDiffs existingCRDs m
  Except.ok (finalMap.map fun kv => kv.2)

end Crd

namespace Crd

/-- The version-label value a Go map read yields for a CRD: the label
value when present, the zero string otherwise (also for a nil map). -/
def versionLabelValue (a : CustomResourceDefinition) : String :=
  match a.labels with
  | none => ""
  | some la => (mapLookup la ServiceOperatorVersionLabel).getD ""

/-- A CRD with a nil label map. -/
def crdNoLabels : CustomResourceDefinition :=
  { defaultCRD with name := "a" }

/-- A CRD whose label map is non-nil but carries no version label. -/
def crdOtherLabel : CustomResourceDefinition :=
  { defaultCRD with name := "a", labels := some [("x", "y")] }

/-- A CRD labelled with version "1". -/
def crdVersion1 : CustomResourceDefinition :=
  { defaultCRD with name := "a", labels := some [(ServiceOperatorVersionLabel, "1")] }

/-- A CRD labelled with version "2". -/
def crdVersion2 : CustomResourceDefinition :=
  { defaultCRD with name := "a", labels := some [(ServiceOperatorVersionLabel, "2")] }

lemma mapLookup_mapInsert (m : List (String × α)) (k k' : String) (v : α) :
    mapLookup (mapInsert m k v) k' = if k = k' then some v else mapLookup m k' := by
  induction m with
  | nil => simp [mapInsert, mapLookup]
  | cons hd tl ih =>
      obtain ⟨k'', v''⟩ := hd
      by_cases h1 : k'' = k
      · subst h1
        by_cases h2 : k'' = k' <;> simp [mapInsert, mapLookup, h2]
      · by_cases h2 : k'' = k'
        · subst h2
          have hne : k ≠ k'' := fun h => h1 h.symm
          simp [mapInsert, mapLookup, h1, hne]
        · simp [mapInsert, mapLookup, h1, h2, ih]

lemma mapLookup_isSome_findMatching_foldl
    (goal : List CustomResourceDefinition)
    (comparators : List Comparator)
    (existingCRDs : List (String × CustomResourceDefinition))
    (acc : List (String × CustomResourceDefinition)) (name : String) :
    (mapLookup
      (goal.foldl
        (fun matching goalCRD =>
          let existingCRD := (mapLookup existingCRDs goalCRD.name).getD defaultCRD
          if allComparatorsHold comparators existingCRD goalCRD then
            mapInsert matching goalCRD.name goalCRD
          else
            matching)
        acc) name).isSome =
    ((mapLookup acc name).isSome ||
      goal.any fun g =>
        decide (g.name = name) &&
          allComparatorsHold comparators
            ((mapLookup existingCRDs g.name).getD defaultCRD) g) := by
  induction goal generalizing acc with
  | nil => simp
  | cons g rest ih =>
      simp only [List.foldl_cons, List.any_cons]
      rw [ih]
      by_cases hc : allComparatorsHold comparators
          ((mapLookup existingCRDs g.name).getD defaultCRD) g
      · simp only [hc, if_pos, mapLookup_mapInsert]
        by_cases hn : g.name = name
        · simp [hn]
        · simp [hn]
      · simp [hc]

/-- Membership in `FindMatchingCRDs`: an entry for `name` exists exactly
when some goal CRD of that name passes every comparator against its
existing counterpart (the zero-valued CRD when absent). -/
lemma mapLookup_isSome_FindMatchingCRDs
    (existing goal : List CustomResourceDefinition)
    (comparators : List Comparator) (name : String) :
    (mapLookup (FindMatchingCRDs existing goal comparators) name).isSome =
      goal.any fun g =>
        decide (g.name = name) &&
          allComparatorsHold comparators
            ((mapLookup (buildExistingMap existing) g.name).getD defaultCRD) g := by
  unfold FindMatchingCRDs
  rw [mapLookup_isSome_findMatching_foldl]
  simp [mapLookup]

/-- C1.  The claim as stated is false on the code: with the two
comparators `VersionEqual` and `SpecEqual` and a pair that fails
`VersionEqual` but passes `SpecEqual`, the goal entry fails ANY
comparator yet is absent from `FindNonMatchingCRDs` — the code inverts
each comparator separately and keeps only entries failing ALL of them. -/
theorem findNonMatching_any_counterexample :
    VersionEqual crdVersion1 crdVersion2 = false ∧
    SpecEqual crdVersion1 crdVersion2 = true ∧
    mapLookup
      (FindNonMatchingCRDs [crdVersion1] [crdVersion2] [VersionEqual, SpecEqual])
      "a" = none :=
  ⟨rfl, rfl, rfl⟩

/-- C1 (amended).  `FindNonMatchingCRDs` returns exactly the goal
entries for which EVERY comparator fails on the pair
`(existingEntryOrZeroValue, goalEntry)` — the conjunction of the
per-comparator negations, which agrees with the negation of the combined
predicate only when at most one comparator is supplied. -/
theorem findNonMatching_returns_entries_failing_all_comparators
    (existing goal : List CustomResourceDefinition)
    (comparators : List Comparator) (name : String) :
    (mapLookup (FindNonMatchingCRDs existing goal comparators) name).isSome =
      goal.any fun g =>
        decide (g.name = name) &&
          comparators.all fun c =>
            !(c ((mapLookup (buildExistingMap existing) g.name).getD defaultCRD) g) := by
  unfold FindNonMatchingCRDs
  rw [mapLookup_isSome_FindMatchingCRDs]
  simp only [allComparatorsHold, List.all_map, Function.comp_def]

/-- C4.  The claim as stated is false on the code: here neither CRD
carries the version label (one has a nil label map, the other a label
map without the version key), the claim requires `VersionEqual` to be
true, yet the code returns false at its nil-map check. -/
theorem versionEqual_neither_carries_counterexample :
    carriesVersionLabel crdNoLabels = false ∧
    carriesVersionLabel crdOtherLabel = false ∧
    VersionEqual crdNoLabels crdOtherLabel = false :=
  ⟨rfl, rfl, rfl⟩

/-- C4 (amended).  `VersionEqual a b` is: true when both label maps are
nil; false when exactly one label map is nil; otherwise true when
neither map carries the version label, and otherwise equality of the two
version-label values, a missing label reading as the empty string. -/
theorem versionEqual_characterization (a b : CustomResourceDefinition) :
    VersionEqual a b =
      if a.labels.isNone && b.labels.isNone then true
      else if a.labels.isNone || b.labels.isNone then false
      else if !carriesVersionLabel a && !carriesVersionLabel b then true
      else decide (versionLabelValue a = versionLabelValue b) := by
  unfold VersionEqual carriesVersionLabel versionLabelValue
  cases ha : a.labels <;> cases hb : b.labels <;> simp

end Crd

namespace Crd

/-- Splitting a character list on a separator, the model of Go's
`strings.Split` with a one-character separator: always returns one more
piece than there are separators. -/
def splitOnChar (sep : Char) : List Char → List (List Char)
  | [] => [[]]
  | c :: cs =>
      match splitOnChar sep cs with
      | [] => [[]]
      | hd :: tl => if c = sep then [] :: hd :: tl else (c :: hd) :: tl

lemma splitOnChar_ne_nil (sep : Char) (s : List Char) : splitOnChar sep s ≠ [] := by
  cases s with
  | nil => simp [splitOnChar]
  | cons c cs =>
      simp only [splitOnChar]
      cases splitOnChar sep cs with
      | nil => simp
      | cons hd tl =>
          by_cases h : c = sep <;> simp [h]

lemma splitOnChar_length (sep : Char) (s : List Char) :
    (splitOnChar sep s).length = s.count sep + 1 := by
  induction s with
  | nil => simp [splitOnChar]
  | cons c cs ih =>
      simp only [splitOnChar]
      cases hs : splitOnChar sep cs with
      | nil => exact absurd hs (splitOnChar_ne_nil sep cs)
      | cons hd tl =>
          rw [hs] at ih
          by_cases h : c = sep
          · subst h
            simp [List.count_cons, ih]
          · simp only [if_neg h, List.length_cons, List.count_cons]
            simp only [List.length_cons] at ih
            simp [ih, beq_iff_eq, h]

/-- `fixCRDNamespace` from manager.go: deep-copies the CRD (an identity
under value semantics), sets the conversion-webhook backing-service
namespace when the whole chain is present, and rewrites the
cert-manager inject-ca-from annotation `"<namespace>/<name>"` to the
target namespace when splitting its value on "/" yields exactly two
parts. -/
def fixCRDNamespace (crd : CustomResourceDefinition) (namespaceArg : String) :
    CustomResourceDefinition :=
  -- Set spec.conversion.webhook.clientConfig.service.namespace
  let result :=
    match crd.spec.conversion with
    | none => crd
    | some conv =>
      match conv.webhook with
      | none => crd
      | some wh =>
        match wh.clientConfig with
        | none => crd
        | some cc =>
          match cc.service with
          | none => crd
          | some svc =>
              { crd with
                spec :=
                  { crd.spec with
                    conversion :=
                      some { conv with
                              webhook :=
                                some { wh with
                                        clientConfig :=
                                          some { cc with
                                                  service :=
                                                    some { svc with namespaceRef := namespaceArg } } } } } }
  -- Set cert-manager.io/inject-ca-from
  match result.annotations with
  | none => result
  | some annots =>
      if annots.length > 0 then
        match mapLookup annots certMgrInjectCAFromKey with
        | none => result
        | some injectCAFrom =>
            let split := splitOnChar '/' injectCAFrom.toList
            if split.length = 2 then
              { result with
                annotations :=
                  some (mapInsert annots certMgrInjectCAFromKey
                    (namespaceArg ++ "/" ++ String.mk (split.getD 1 []))) }
            else result
      else result

/-- The conversion-webhook backing-service namespace of a CRD, when the
whole chain down to the service is present. -/
def webhookServiceNamespace (crd : CustomResourceDefinition) : Option String :=
  match crd.spec.conversion with
  | some conv =>
    match conv.webhook with
    | some wh =>
      match wh.clientConfig with
      | some cc =>
        match cc.service with
        | some svc => some svc.namespaceRef
        | none => none
      | none => none
    | none => none
  | none => none

/-- Erases the conversion-webhook backing-service namespace (forcing it
to the empty string when present), leaving every other part of the
conversion block intact: the frame half of the namespace-rewrite
characterization. -/
def eraseWebhookServiceNamespace (conversion : Option CustomResourceConversion) :
    Option CustomResourceConversion :=
  match conversion with
  | none => none
  | some conv =>
    match conv.webhook with
    | none => some conv
    | some wh =>
      match wh.clientConfig with
      | none => some conv
      | some cc =>
        match cc.service with
        | none => some conv
        | some svc =>
            some { conv with
                    webhook :=
                      some { wh with
                              clientConfig :=
                                some { cc with service := some { svc with namespaceRef := "" } } } }

end Crd

namespace Crd

/-- The spec's namespace-rewrite scenario CRD: webhook service namespace
"old-ns" and inject-ca-from annotation "old-ns/some-cert". -/
def nsRewriteExampleCRD : CustomResourceDefinition :=
  { defaultCRD with
    name := "example"
    annotations := some [(certMgrInjectCAFromKey, "old-ns/some-cert")]
    spec :=
      { defaultCRD.spec with
        conversion :=
          some { strategy := "Webhook"
                 webhook :=
                   some { clientConfig :=
                            some { url := none
                                   service :=
                                     some { namespaceRef := "old-ns"
                                            name := "webhook-svc"
                                            path := some "/convert"
                                            port := some 443 }
                                   caBundle := none }
                          conversionReviewVersions := ["v1"] } } } }

example :
    webhookServiceNamespace (fixCRDNamespace nsRewriteExampleCRD "new-ns") = some "new-ns" := by
  rfl

example :
    mapLookup ((fixCRDNamespace nsRewriteExampleCRD "new-ns").annotations.getD [])
      certMgrInjectCAFromKey = some "new-ns/some-cert" := by
  rfl

example :
    (fixCRDNamespace
      { nsRewriteExampleCRD with
        annotations := some [(certMgrInjectCAFromKey, "no-slash-value")] }
      "new-ns").annotations =
      some [(certMgrInjectCAFromKey, "no-slash-value")] := by
  rfl

/-- C8.  `fixCRDNamespace` rewrites exactly two namespace-dependent
fields: name, labels and every spec field other than the
conversion-webhook service namespace are unchanged; the service
namespace becomes the target namespace exactly when the whole chain is
present; and the inject-ca-from annotation is rewritten to
`"<targetNamespace>/<name>"` exactly when splitting its value on "/"
yields two parts — equivalently (final clause) when the value contains
exactly one '/' — and is left untouched otherwise, other annotation keys
never changing. -/
theorem fixCRDNamespace_rewrites_exactly_two_fields
    (crd : CustomResourceDefinition) (ns : String) :
    (fixCRDNamespace crd ns).name = crd.name ∧
    (fixCRDNamespace crd ns).labels = crd.labels ∧
    (fixCRDNamespace crd ns).spec.group = crd.spec.group ∧
    (fixCRDNamespace crd ns).spec.names = crd.spec.names ∧
    (fixCRDNamespace crd ns).spec.scope = crd.spec.scope ∧
    (fixCRDNamespace crd ns).spec.versions = crd.spec.versions ∧
    (fixCRDNamespace crd ns).spec.preserveUnknownFields = crd.spec.preserveUnknownFields ∧
    webhookServiceNamespace (fixCRDNamespace crd ns) =
      (webhookServiceNamespace crd).map (fun _ => ns) ∧
    eraseWebhookServiceNamespace (fixCRDNamespace crd ns).spec.conversion =
      eraseWebhookServiceNamespace crd.spec.conversion ∧
    ((fixCRDNamespace crd ns).annotations =
      match crd.annotations with
      | none => none
      | some annots =>
          some (match mapLookup annots certMgrInjectCAFromKey with
            | none => annots
            | some v =>
                if (splitOnChar '/' v.toList).length = 2 then
                  mapInsert annots certMgrInjectCAFromKey
                    (ns ++ "/" ++ String.mk ((splitOnChar '/' v.toList).getD 1 []))
                else annots)) ∧
    (∀ v : String,
      (splitOnChar '/' v.toList).length = 2 ↔ v.toList.count '/' = 1) := by
  obtain ⟨nm, lb, an, ⟨g, nms, sc, vs, conv, pf⟩⟩ := crd
  have hsplit : ∀ v : String,
      (splitOnChar '/' v.toList).length = 2 ↔ v.toList.count '/' = 1 := by
    intro v
    rw [splitOnChar_length]
    omega
  rcases conv with _ | ⟨strat, _ | ⟨_ | ⟨url, _ | ⟨nsr, snm, pth, prt⟩, cab⟩, crv⟩⟩ <;>
    rcases an with _ | an <;>
      refine ⟨?_, ?_, ?_, ?_, ?_, ?_, ?_, ?_, ?_, ?_, hsplit⟩ <;>
        simp only [fixCRDNamespace] <;>
          (repeat' split) <;>
            simp_all [webhookServiceNamespace, eraseWebhookServiceNamespace, mapLookup, mapInsert]

end Crd

namespace CloudErr

/-- The details payload (`[]*ErrorResponse`); its inner structure is
opaque to `UnmarshalJSON`, which only copies the slice, so entries are
carried as opaque strings and a nil slice as `none`. -/
abbrev Details := Option (List String)

/-- The nested `error` object of the ARM error envelope
(the anonymous `InnerError` struct in `CloudError.UnmarshalJSON`). -/
structure InnerErrorContent where
  code : Option String
  message : Option String
  target : Option String
  details : Details
  deriving DecidableEq, Repr

/-- The anonymous `content` struct `CloudError.UnmarshalJSON` decodes
into: top-level fields plus the optional nested `error` object. -/
structure CloudErrorContent where
  code : Option String
  message : Option String
  target : Option String
  details : Details
  innerError : Option InnerErrorContent
  deriving DecidableEq, Repr

/-- The fields of `CloudError` that `UnmarshalJSON` assigns. -/
structure CloudErrorFields where
  code : Option String
  message : Option String
  target : Option String
  details : Details
  deriving DecidableEq, Repr

/-- `CloudError.UnmarshalJSON` from cloud_error.go, with the
`json.Unmarshal` step abstracted as an `Except` input: a JSON decoding
failure is wrapped and propagated; otherwise the fields come from the
nested `error` object when present, and from the top level otherwise. -/
def unmarshalCloudError (parsed : Except String CloudErrorContent) :
    Except String CloudErrorFields :=
  match parsed with
  | Except.error e => Except.error ("unmarshalling JSON for CloudError: " ++ e)
  | Except.ok content =>
    match content.innerError with
    | some inner =>
        Except.ok
          { code := inner.code
            message := inner.message
            target := inner.target
            details := inner.details }
    | none =>
        Except.ok
          { code := content.code
            message := content.message
            target := content.target
            details := content.details }

/-- A decoded body with both top-level fields and a nested error
object. -/
def sampleNested : CloudErrorContent :=
  { code := some "top-code"
    message := some "top-message"
    target := some "top-target"
    details := some ["top-detail"]
    innerError :=
      some { code := some "inner-code"
             message := some "inner-message"
             target := none
             details := some ["inner-detail"] } }

/-- A decoded body with top-level fields only. -/
def sampleTopLevel : CloudErrorContent :=
  { code := some "top-code"
    message := some "top-message"
    target := some "top-target"
    details := some ["top-detail"]
    innerError := none }

/-- C10.  For every successfully decoded body, `UnmarshalJSON` takes
code, message, target and details exclusively from the nested `error`
object when one is present — whatever the top-level fields hold — and
from the top level otherwise; it fails exactly when the JSON decoding
itself fails. -/
theorem unmarshalCloudError_prefers_nested_error :
    (∀ (c : CloudErrorContent) (inner : InnerErrorContent),
      c.innerError = some inner →
        unmarshalCloudError (Except.ok c) =
          Except.ok
            { code := inner.code
              message := inner.message
              target := inner.target
              details := inner.details }) ∧
    (∀ c : CloudErrorContent,
      c.innerError = none →
        unmarshalCloudError (Except.ok c) =
          Except.ok
            { code := c.code
              message := c.message
              target := c.target
              details := c.details }) ∧
    (∀ p : Except String CloudErrorContent,
      (unmarshalCloudError p).isOk = p.isOk) := by
  refine ⟨?_, ?_, ?_⟩
  · intro c inner h
    simp [unmarshalCloudError, h]
  · intro c h
    simp [unmarshalCloudError, h]
  · intro p
    cases p with
    | error e => rfl
    | ok c =>
        cases h : c.innerError <;> simp [unmarshalCloudError, h, Except.isOk, Except.toBool]

/-- Witness for C10: the nested branch ignores the top-level fields of
`sampleNested`, and the top-level branch is used for `sampleTopLevel`. -/
theorem unmarshalCloudError_prefers_nested_error_witness :
    unmarshalCloudError (Except.ok sampleNested) =
      Except.ok
        { code := some "inner-code"
          message := some "inner-message"
          target := none
          details := some ["inner-detail"] } ∧
    unmarshalCloudError (Except.ok sampleTopLevel) =
      Except.ok
        { code := some "top-code"
          message := some "top-message"
          target := some "top-target"
          details := some ["top-detail"] } :=
  ⟨unmarshalCloudError_prefers_nested_error.1 sampleNested
      { code := some "inner-code"
        message := some "inner-message"
        target := none
        details := some ["inner-detail"] } rfl,
    unmarshalCloudError_prefers_nested_error.2.1 sampleTopLevel rfl⟩

end CloudErr

namespace Crd

lemma mapLookup_eq_some_mem {m : List (String × α)} {k : String} {v : α}
    (h : mapLookup m k = some v) : (k, v) ∈ m := by
  induction m with
  | nil => simp [mapLookup] at h
  | cons hd tl ih =>
      obtain ⟨k', v'⟩ := hd
      by_cases hk : k' = k
      · subst hk
        simp [mapLookup] at h
        simp [h]
      · simp [mapLookup, hk] at h
        exact List.mem_cons_of_mem _ (ih h)

lemma mapLookup_isSome_iff_mem_keys (m : List (String × α)) (k : String) :
    (mapLookup m k).isSome ↔ k ∈ m.map Prod.fst := by
  induction m with
  | nil => simp [mapLookup]
  | cons hd tl ih =>
      obtain ⟨k', v'⟩ := hd
      by_cases hk : k' = k
      · subst hk
        simp [mapLookup]
      · simp only [mapLookup, if_neg hk, List.map_cons, List.mem_cons]
        rw [ih]
        constructor
        · exact Or.inr
        · rintro (h | h)
          · exact absurd h.symm hk
          · exact h

lemma keys_mapUpdate (m : List (String × α)) (k : String) (f : α → α) :
    (mapUpdate m k f).map Prod.fst = m.map Prod.fst := by
  unfold mapUpdate
  rw [List.map_map]
  apply List.map_congr_left
  intro kv _
  by_cases h : kv.1 = k <;> simp [h]

lemma mapLookup_map_keyed (m : List (String × α)) (f : String → α → β) (k : String) :
    mapLookup (m.map fun kv => (kv.1, f kv.1 kv.2)) k = (mapLookup m k).map (f k) := by
  induction m with
  | nil => simp [mapLookup]
  | cons hd tl ih =>
      obtain ⟨k', v'⟩ := hd
      by_cases h : k' = k
      · subst h
        simp [mapLookup]
      · simp [mapLookup, h, ih]

lemma mapLookup_map_value (m : List (String × α)) (f : α → β) (k : String) :
    mapLookup (m.map fun kv => (kv.1, f kv.2)) k = (mapLookup m k).map f :=
  mapLookup_map_keyed m (fun _ v => f v) k

lemma mapUpdate_eq_map (m : List (String × α)) (k : String) (f : α → α) :
    mapUpdate m k f = m.map fun kv => (kv.1, if kv.1 = k then f kv.2 else kv.2) := by
  unfold mapUpdate
  apply List.map_congr_left
  intro kv _
  by_cases h : kv.1 = k <;> simp [h]

lemma mapLookup_mapUpdate (m : List (String × α)) (k k' : String) (f : α → α) :
    mapLookup (mapUpdate m k f) k' =
      if k' = k then (mapLookup m k).map f else mapLookup m k' := by
  have h0 : mapUpdate m k f =
      m.map fun kv => (kv.1, (fun k1 v => if k1 = k then f v else v) kv.1 kv.2) :=
    mapUpdate_eq_map m k f
  rw [h0, mapLookup_map_keyed m (fun k1 v => if k1 = k then f v else v) k']
  by_cases h : k' = k
  · subst h
    simp
  · simp only [if_neg h]
    cases mapLookup m k' <;> simp [h]

lemma mem_mapInsert {kv : String × α} {m : List (String × α)} {k : String} {v : α}
    (h : kv ∈ mapInsert m k v) : kv ∈ m ∨ kv = (k, v) := by
  induction m with
  | nil => simp [mapInsert] at h; simp [h]
  | cons hd tl ih =>
      obtain ⟨k', v'⟩ := hd
      by_cases hk : k' = k
      · subst hk
        simp [mapInsert] at h
        rcases h with h | h
        · simp [h]
        · simp [h]
      · simp [mapInsert, hk] at h
        rcases h with h | h
        · simp [h]
        · rcases ih h with h' | h'
          · simp [h']
          · simp [h']

lemma mem_keys_mapInsert (m : List (String × α)) (k k' : String) (v : α) :
    k' ∈ (mapInsert m k v).map Prod.fst ↔ k' ∈ m.map Prod.fst ∨ k' = k := by
  induction m with
  | nil => simp [mapInsert]
  | cons hd tl ih =>
      obtain ⟨k'', v''⟩ := hd
      by_cases hk : k'' = k
      · subst hk
        simp [mapInsert]
        tauto
      · simp [mapInsert, hk, ih]
        tauto

lemma nodup_keys_mapInsert {m : List (String × α)} (k : String) (v : α)
    (h : (m.map Prod.fst).Nodup) : ((mapInsert m k v).map Prod.fst).Nodup := by
  induction m with
  | nil => simp [mapInsert]
  | cons hd tl ih =>
      obtain ⟨k'', v''⟩ := hd
      simp only [List.map_cons, List.nodup_cons] at h
      by_cases hk : k'' = k
      · subst hk
        simp only [mapInsert, if_pos trivial, ite_true, List.map_cons, List.nodup_cons]
        exact h
      · simp only [mapInsert, if_neg hk, ite_false, List.map_cons, List.nodup_cons]
        refine ⟨?_, ih h.2⟩
        rw [mem_keys_mapInsert]
        rintro (hc | hc)
        · exact h.1 hc
        · exact hk hc

end Crd

namespace Crd

lemma seed_foldl_entries (goalCRDs : List CustomResourceDefinition)
    (P : String × CRDInstallationInstruction → Prop)
    (acc : List (String × CRDInstallationInstruction))
    (hacc : ∀ kv ∈ acc, P kv)
    (hnew : ∀ crd ∈ goalCRDs, P (crd.name, newInstruction crd)) :
    ∀ kv ∈ goalCRDs.foldl (fun m crd => mapInsert m crd.name (newInstruction crd)) acc,
      P kv := by
  induction goalCRDs generalizing acc with
  | nil => simpa using hacc
  | cons crd rest ih =>
      intro kv hkv
      refine ih (mapInsert acc crd.name (newInstruction crd)) ?_ ?_ kv hkv
      · intro kv' hkv'
        rcases mem_mapInsert hkv' with h | h
        · exact hacc kv' h
        · subst h
          exact hnew crd (List.mem_cons_self crd rest)
      · intro crd' hcrd'
        exact hnew crd' (List.mem_cons_of_mem _ hcrd')

/-- Every entry of the seeded map is keyed by its own CRD's name, comes
from the goal list, and starts `Excluded` with `NoDifference`. -/
lemma entries_seedInstructions (goalCRDs : List CustomResourceDefinition) :
    ∀ kv ∈ seedInstructions goalCRDs,
      kv.2.crd.name = kv.1 ∧ kv.2.crd ∈ goalCRDs ∧
        kv.2.filterResult = FilterResult.Excluded ∧
        kv.2.diffResult = DiffResult.NoDifference := by
  apply seed_foldl_entries
  · intro kv hkv
    simp at hkv
  · intro crd hcrd
    exact ⟨rfl, hcrd, rfl, rfl⟩

lemma seed_foldl_keys_mem (goalCRDs : List CustomResourceDefinition)
    (acc : List (String × CRDInstallationInstruction)) (k : String) :
    (k ∈ (goalCRDs.foldl (fun m crd => mapInsert m crd.name (newInstruction crd)) acc).map
        Prod.fst) ↔
      k ∈ acc.map Prod.fst ∨ k ∈ goalCRDs.map CustomResourceDefinition.name := by
  induction goalCRDs generalizing acc with
  | nil => simp
  | cons crd rest ih =>
      simp only [List.foldl_cons, List.map_cons, List.mem_cons]
      rw [ih]
      rw [mem_keys_mapInsert]
      tauto

lemma keys_seedInstructions_mem (goalCRDs : List CustomResourceDefinition) (k : String) :
    k ∈ (seedInstructions goalCRDs).map Prod.fst ↔
      k ∈ goalCRDs.map CustomResourceDefinition.name := by
  unfold seedInstructions
  rw [seed_foldl_keys_mem]
  simp

lemma nodup_keys_seedInstructions (goalCRDs : List CustomResourceDefinition) :
    ((seedInstructions goalCRDs).map Prod.fst).Nodup := by
  unfold seedInstructions
  have hgen : ∀ acc : List (String × CRDInstallationInstruction),
      (acc.map Prod.fst).Nodup →
      ((goalCRDs.foldl (fun m crd => mapInsert m crd.name (newInstruction crd)) acc).map
        Prod.fst).Nodup := by
    induction goalCRDs with
    | nil => intro acc h; simpa using h
    | cons crd rest ih =>
        intro acc h
        exact ih _ (nodup_keys_mapInsert _ _ h)
  exact hgen [] (by simp)

lemma keys_filterCRDsByExisting (existingCRDs : List CustomResourceDefinition)
    (m : List (String × CRDInstallationInstruction)) :
    (filterCRDsByExisting existingCRDs m).map Prod.fst = m.map Prod.fst := by
  unfold filterCRDsByExisting
  induction existingCRDs generalizing m with
  | nil => simp
  | cons crd rest ih =>
      simp only [List.foldl_cons]
      rw [ih, keys_mapUpdate]

lemma entries_mapUpdate (P : String × α → Prop) (m : List (String × α)) (k : String)
    (f : α → α) (hm : ∀ kv ∈ m, P kv) (hf : ∀ k' v, P (k', v) → P (k', f v)) :
    ∀ kv ∈ mapUpdate m k f, P kv := by
  intro kv hkv
  unfold mapUpdate at hkv
  rcases List.mem_map.mp hkv with ⟨kv0, hkv0, heq⟩
  by_cases h : kv0.1 = k
  · rw [if_pos h] at heq
    subst heq
    exact hf _ _ (hm ⟨kv0.1, kv0.2⟩ (by simpa using hkv0))
  · rw [if_neg h] at heq
    subst heq
    exact hm kv0 hkv0

lemma entries_filterCRDsByExisting (P : String × CRDInstallationInstruction → Prop)
    (existingCRDs : List CustomResourceDefinition)
    (m : List (String × CRDInstallationInstruction))
    (hm : ∀ kv ∈ m, P kv)
    (hf : ∀ crd k ins, P (k, ins) → P (k, markExisting crd ins)) :
    ∀ kv ∈ filterCRDsByExisting existingCRDs m, P kv := by
  unfold filterCRDsByExisting
  induction existingCRDs generalizing m with
  | nil => simpa using hm
  | cons crd rest ih =>
      simp only [List.foldl_cons]
      exact ih _ (entries_mapUpdate P m crd.name (markExisting crd) hm (hf crd))

lemma filterCRDsByPatterns_empty (m : List (String × CRDInstallationInstruction)) :
    filterCRDsByPatterns [] m = Except.ok m := rfl

lemma filterCRDsByPatterns_ok_eq {patterns : List String}
    {m m' : List (String × CRDInstallationInstruction)}
    (hne : patterns.isEmpty = false)
    (h : filterCRDsByPatterns patterns m = Except.ok m') :
    m' = m.map fun kv => (kv.1, markByPatterns patterns kv.2) := by
  unfold filterCRDsByPatterns at h
  rw [hne] at h
  simp only [Bool.false_eq_true, if_false] at h
  by_cases hu : (unmatchedPatterns patterns m).isEmpty
  · rw [if_pos hu] at h
    exact (Except.ok.injEq _ _ ▸ h).symm
  · rw [if_neg hu] at h
    exact absurd h (by simp)

lemma filterCRDsByPatterns_error_of_unmatched {patterns : List String}
    {m : List (String × CRDInstallationInstruction)}
    (hne : patterns.isEmpty = false)
    (hu : (unmatchedPatterns patterns m).isEmpty = false) :
    filterCRDsByPatterns patterns m =
      Except.error (PlanError.patternsNotMatched (unmatchedPatterns patterns m)) := by
  unfold filterCRDsByPatterns
  rw [hne]
  simp only [Bool.false_eq_true, if_false]
  rw [if_neg (by simp [hu])]

lemma keys_setDiffResults {diffs : List (String × CustomResourceDefinition)}
    {r : DiffResult} {m m' : List (String × CRDInstallationInstruction)}
    (h : setDiffResults diffs r m = Except.ok m') :
    m'.map Prod.fst = m.map Prod.fst := by
  induction diffs generalizing m with
  | nil =>
      simp only [setDiffResults] at h
      cases h
      rfl
  | cons d rest ih =>
      obtain ⟨name, crd⟩ := d
      simp only [setDiffResults] at h
      by_cases hs : (mapLookup m name).isSome
      · rw [if_pos hs] at h
        rw [ih h, keys_mapUpdate]
      · rw [if_neg hs] at h
        exact absurd h (by simp)

lemma setDiffResults_ok_lookup {diffs : List (String × CustomResourceDefinition)}
    {r : DiffResult} {m m' : List (String × CRDInstallationInstruction)}
    (h : setDiffResults diffs r m = Except.ok m') (k : String) :
    mapLookup m' k =
      (mapLookup m k).map fun ins =>
        if k ∈ diffs.map Prod.fst then { ins with diffResult := r } else ins := by
  induction diffs generalizing m with
  | nil =>
      simp only [setDiffResults] at h
      cases h
      simp
  | cons d rest ih =>
      obtain ⟨name, crd⟩ := d
      simp only [setDiffResults] at h
      by_cases hs : (mapLookup m name).isSome
      · rw [if_pos hs] at h
        rw [ih h, mapLookup_mapUpdate]
        by_cases hk : k = name
        · subst hk
          simp only [if_pos rfl, List.map_cons, List.mem_cons, true_or, if_pos]
          cases mapLookup m k <;> by_cases hr : k ∈ rest.map Prod.fst <;> simp [hr]
        · simp only [if_neg hk, List.map_cons, List.mem_cons]
          have : (k ∈ name :: rest.map Prod.fst) ↔ k ∈ rest.map Prod.fst := by
            simp [hk]
          cases mapLookup m k <;>
            by_cases hr : k ∈ rest.map Prod.fst <;> simp [hr, hk]
      · rw [if_neg hs] at h
        exact absurd h (by simp)

end Crd

namespace Crd

lemma markExisting_crd (crd : CustomResourceDefinition)
    (ins : CRDInstallationInstruction) : (markExisting crd ins).crd = ins.crd := rfl

lemma markExisting_diffResult (crd : CustomResourceDefinition)
    (ins : CRDInstallationInstruction) :
    (markExisting crd ins).diffResult = ins.diffResult := rfl

lemma markByPatterns_crd (patterns : List String) (ins : CRDInstallationInstruction) :
    (markByPatterns patterns ins).crd = ins.crd := by
  unfold markByPatterns
  cases patterns.find? (fun p => patternMatchesCRD p ins.crd) <;> rfl

lemma markByPatterns_diffResult (patterns : List String)
    (ins : CRDInstallationInstruction) :
    (markByPatterns patterns ins).diffResult = ins.diffResult := by
  unfold markByPatterns
  cases patterns.find? (fun p => patternMatchesCRD p ins.crd) <;> rfl

lemma isEmpty_eq_false_of_ne_nil {l : List α} (h : l ≠ []) : l.isEmpty = false := by
  cases l with
  | nil => exact absurd rfl h
  | cons a l => rfl

/-- Every instruction in the existing-pass output draws its CRD from the
goal list and is keyed by that CRD's name. -/
lemma entries_planBase (goalCRDs existingCRDs : List CustomResourceDefinition) :
    ∀ kv ∈ filterCRDsByExisting existingCRDs (seedInstructions goalCRDs),
      kv.2.crd.name = kv.1 ∧ kv.2.crd ∈ goalCRDs := by
  apply entries_filterCRDsByExisting
  · intro kv hkv
    exact ⟨(entries_seedInstructions goalCRDs kv hkv).1,
      (entries_seedInstructions goalCRDs kv hkv).2.1⟩
  · intro crd k ins h
    exact h

/-- C7.  With a non-empty pattern spec containing a pattern that matches
no goal CRD, `DetermineCRDsToInstallOrUpgrade` fails with the
pattern-validation error listing the unmatched patterns (among them that
pattern); and an empty pattern spec never triggers pattern validation
(the pattern pass returns its input unchanged). -/
theorem determine_fails_on_unmatched_pattern
    (goalCRDs existingCRDs : List CustomResourceDefinition)
    (patterns : List String) (p : String)
    (hne : patterns ≠ [])
    (hp : p ∈ patterns)
    (hnomatch : ∀ g ∈ goalCRDs, patternMatchesCRD p g = false) :
    (DetermineCRDsToInstallOrUpgrade goalCRDs existingCRDs patterns =
        Except.error (PlanError.patternsNotMatched
          (unmatchedPatterns patterns
            (filterCRDsByExisting existingCRDs (seedInstructions goalCRDs)))) ∧
      p ∈ unmatchedPatterns patterns
            (filterCRDsByExisting existingCRDs (seedInstructions goalCRDs))) ∧
    (∀ m, filterCRDsByPatterns [] m = Except.ok m) := by
  set m2 := filterCRDsByExisting existingCRDs (seedInstructions goalCRDs) with hm2
  have hpmem : p ∈ unmatchedPatterns patterns m2 := by
    unfold unmatchedPatterns
    rw [List.mem_filter]
    refine ⟨hp, ?_⟩
    have : (m2.any fun kv => patternMatchesCRD p kv.2.crd) = false := by
      rw [List.any_eq_false]
      intro kv hkv
      have hcrd := (entries_planBase goalCRDs existingCRDs kv hkv).2
      simp [hnomatch kv.2.crd hcrd]
    simp [this]
  have hune : (unmatchedPatterns patterns m2).isEmpty = false :=
    isEmpty_eq_false_of_ne_nil (List.ne_nil_of_mem hpmem)
  have herr : filterCRDsByPatterns patterns m2 =
      Except.error (PlanError.patternsNotMatched (unmatchedPatterns patterns m2)) :=
    filterCRDsByPatterns_error_of_unmatched (isEmpty_eq_false_of_ne_nil hne) hune
  have hplan : planMap goalCRDs existingCRDs patterns =
      Except.error (PlanError.patternsNotMatched (unmatchedPatterns patterns m2)) := by
    unfold planMap
    rw [← hm2, herr]
  refine ⟨⟨?_, hpmem⟩, fun m => rfl⟩
  unfold DetermineCRDsToInstallOrUpgrade
  rw [hplan]
  rfl

/-- A goal CRD named "foo-bar" (the spec's pattern-filter scenario). -/
def fooBarCRD : CustomResourceDefinition :=
  { defaultCRD with name := "foo-bar" }

/-- An existing CRD named "existing-one". -/
def existingOneCRD : CustomResourceDefinition :=
  { defaultCRD with name := "existing-one" }

/-- Witness for C7: pattern spec "nomatch-*" against the single goal CRD
"foo-bar" makes planning fail with the pattern-validation error. -/
theorem determine_fails_on_unmatched_pattern_witness :
    DetermineCRDsToInstallOrUpgrade [fooBarCRD] [] ["nomatch-*"] =
      Except.error (PlanError.patternsNotMatched ["nomatch-*"]) := by
  have h := (determine_fails_on_unmatched_pattern [fooBarCRD] [] ["nomatch-*"] "nomatch-*"
    (by simp) (by simp) (by intro g hg; simp at hg; subst hg; rfl)).1.1
  exact h

end Crd

namespace Crd

example : globMatch "foo-*" "foo-bar" = true := rfl
example : globMatch "nomatch-*" "foo-bar" = false := rfl
example : globMatch "foo-*" "existing-one" = false := rfl

/-- C3.  In `DetermineCRDsToInstallOrUpgrade` the pattern pass consumes
the output of the existing-CRD pass (this is `planMap`'s composition
order), and on success each surviving instruction is exactly
`markByPatterns` of the existing-pass instruction: an `Excluded`
instruction matched by some pattern is upgraded to `MatchedPattern`,
and an instruction already classified `MatchedExistingCRD` is never
downgraded to `Excluded`. -/
theorem pattern_pass_upgrades_and_never_downgrades
    (goalCRDs existingCRDs : List CustomResourceDefinition)
    (patterns : List String)
    (m' : List (String × CRDInstallationInstruction))
    (hne : patterns ≠ [])
    (h : planMap goalCRDs existingCRDs patterns = Except.ok m') :
    ∀ k ins0 ins',
      mapLookup (filterCRDsByExisting existingCRDs (seedInstructions goalCRDs)) k =
        some ins0 →
      mapLookup m' k = some ins' →
      ins' = markByPatterns patterns ins0 ∧
      ((ins0.filterResult = FilterResult.Excluded ∧
          (patterns.any fun p => patternMatchesCRD p ins0.crd) = true) →
        ins'.filterResult = FilterResult.MatchedPattern) ∧
      (ins0.filterResult = FilterResult.MatchedExistingCRD →
        ins'.filterResult ≠ FilterResult.Excluded) := by
  intro k ins0 ins' h0 h'
  unfold planMap at h
  have hmark := filterCRDsByPatterns_ok_eq (isEmpty_eq_false_of_ne_nil hne) h
  subst hmark
  rw [mapLookup_map_value, h0] at h'
  have h'' : some (markByPatterns patterns ins0) = some ins' := h'
  obtain rfl : ins' = markByPatterns patterns ins0 := by
    cases h''
    rfl
  refine ⟨rfl, ?_, ?_⟩
  · rintro ⟨-, hany⟩
    have : ∃ q ∈ patterns, patternMatchesCRD q ins0.crd = true := by
      simpa [List.any_eq_true] using hany
    have hfind : (patterns.find? fun p => patternMatchesCRD p ins0.crd).isSome := by
      rw [List.find?_isSome]
      simpa using this
    unfold markByPatterns
    cases hf : patterns.find? fun p => patternMatchesCRD p ins0.crd with
    | none => rw [hf] at hfind; simp at hfind
    | some q => rfl
  · intro hex
    unfold markByPatterns
    cases patterns.find? fun p => patternMatchesCRD p ins0.crd with
    | none => simp [hex]
    | some q => simp

/-- The planner map for the spec's `"foo-*"` scenario: goal CRDs
"foo-bar" (new) and "existing-one" (already installed), pattern spec
`"foo-*"`. -/
def fooScenarioPlan : List (String × CRDInstallationInstruction) :=
  match planMap [fooBarCRD, existingOneCRD] [existingOneCRD] ["foo-*"] with
  | Except.ok m => m
  | Except.error _ => []

/-- Witness for C3: in the `"foo-*"` scenario the seeded-`Excluded`
instruction for "foo-bar" is upgraded to `MatchedPattern` by the pattern
pass. -/
theorem pattern_pass_upgrades_and_never_downgrades_witness :
    (mapLookup fooScenarioPlan "foo-bar").map (fun i => i.filterResult) =
      some FilterResult.MatchedPattern := by
  have h := pattern_pass_upgrades_and_never_downgrades
    [fooBarCRD, existingOneCRD] [existingOneCRD] ["foo-*"] fooScenarioPlan
    (by simp) rfl "foo-bar" (newInstruction fooBarCRD)
    (markByPatterns ["foo-*"] (newInstruction fooBarCRD)) rfl rfl
  have h2 : (markByPatterns ["foo-*"] (newInstruction fooBarCRD)).filterResult =
      FilterResult.MatchedPattern :=
    h.2.1 ⟨rfl, rfl⟩
  calc (mapLookup fooScenarioPlan "foo-bar").map (fun i => i.filterResult)
      = some ((markByPatterns ["foo-*"] (newInstruction fooBarCRD)).filterResult) := rfl
    _ = some FilterResult.MatchedPattern := by rw [h2]

end Crd

namespace Crd

lemma keys_map_value (m : List (String × α)) (f : α → β) :
    ((m.map fun kv => (kv.1, f kv.2)).map Prod.fst) = m.map Prod.fst := by
  rw [List.map_map]
  rfl

lemma keys_filterCRDsByPatterns_ok {patterns : List String}
    {m m' : List (String × CRDInstallationInstruction)}
    (h : filterCRDsByPatterns patterns m = Except.ok m') :
    m'.map Prod.fst = m.map Prod.fst := by
  by_cases he : patterns.isEmpty
  · unfold filterCRDsByPatterns at h
    rw [if_pos he] at h
    cases h
    rfl
  · rw [filterCRDsByPatterns_ok_eq (by simpa using he) h, keys_map_value]

lemma entries_filterCRDsByPatterns_ok (P : String × CRDInstallationInstruction → Prop)
    {patterns : List String} {m m' : List (String × CRDInstallationInstruction)}
    (h : filterCRDsByPatterns patterns m = Except.ok m')
    (hm : ∀ kv ∈ m, P kv)
    (hf : ∀ k ins, P (k, ins) → P (k, markByPatterns patterns ins)) :
    ∀ kv ∈ m', P kv := by
  by_cases he : patterns.isEmpty
  · unfold filterCRDsByPatterns at h
    rw [if_pos he] at h
    cases h
    exact hm
  · rw [filterCRDsByPatterns_ok_eq (by simpa using he) h]
    intro kv hkv
    rcases List.mem_map.mp hkv with ⟨kv0, hkv0, heq⟩
    subst heq
    exact hf kv0.1 kv0.2 (hm ⟨kv0.1, kv0.2⟩ (by simpa using hkv0))

lemma entries_setDiffResults (P : String × CRDInstallationInstruction → Prop)
    {diffs : List (String × CustomResourceDefinition)} {r : DiffResult}
    {m m' : List (String × CRDInstallationInstruction)}
    (h : setDiffResults diffs r m = Except.ok m')
    (hm : ∀ kv ∈ m, P kv)
    (hf : ∀ k ins, P (k, ins) → P (k, { ins with diffResult := r })) :
    ∀ kv ∈ m', P kv := by
  induction diffs generalizing m with
  | nil =>
      simp only [setDiffResults] at h
      cases h
      exact hm
  | cons d rest ih =>
      obtain ⟨name, crd⟩ := d
      simp only [setDiffResults] at h
      by_cases hs : (mapLookup m name).isSome
      · rw [if_pos hs] at h
        exact ih h (entries_mapUpdate P m name _ hm fun k' v hv => hf k' v hv)
      · rw [if_neg hs] at h
        exact absurd h (by simp)

lemma applyDiffs_ok_elim {existingCRDs : List CustomResourceDefinition}
    {m final : List (String × CRDInstallationInstruction)}
    (h : applyDiffs existingCRDs m = Except.ok final) :
    ∃ m1,
      setDiffResults (FindNonMatchingCRDs existingCRDs (filteredGoalCRDs m) [SpecEqual])
          DiffResult.SpecDifferent m = Except.ok m1 ∧
      setDiffResults (FindNonMatchingCRDs existingCRDs (filteredGoalCRDs m) [VersionEqual])
          DiffResult.VersionDifferent m1 = Except.ok final := by
  unfold applyDiffs at h
  have h2 : (setDiffResults
        (FindNonMatchingCRDs existingCRDs (filteredGoalCRDs m) [SpecEqual])
        DiffResult.SpecDifferent m >>= fun m1 =>
      setDiffResults
        (FindNonMatchingCRDs existingCRDs (filteredGoalCRDs m) [VersionEqual])
        DiffResult.VersionDifferent m1) = Except.ok final := h
  cases hs : setDiffResults
      (FindNonMatchingCRDs existingCRDs (filteredGoalCRDs m) [SpecEqual])
      DiffResult.SpecDifferent m with
  | error e =>
      rw [hs] at h2
      exact absurd h2 (by simp [Bind.bind, Except.bind])
  | ok m1 =>
      rw [hs] at h2
      have h3 : setDiffResults
          (FindNonMatchingCRDs existingCRDs (filteredGoalCRDs m) [VersionEqual])
          DiffResult.VersionDifferent m1 = Except.ok final := h2
      exact ⟨m1, rfl, h3⟩

lemma determine_ok_elim {goalCRDs existingCRDs : List CustomResourceDefinition}
    {patterns : List String} {results : List CRDInstallationInstruction}
    (h : DetermineCRDsToInstallOrUpgrade goalCRDs existingCRDs patterns =
      Except.ok results) :
    ∃ m final,
      planMap goalCRDs existingCRDs patterns = Except.ok m ∧
      applyDiffs existingCRDs m = Except.ok final ∧
      results = final.map fun kv => kv.2 := by
  unfold DetermineCRDsToInstallOrUpgrade at h
  cases hp : planMap goalCRDs existingCRDs patterns with
  | error e =>
      rw [hp] at h
      exact absurd h (by simp [Bind.bind, Except.bind])
  | ok m =>
      rw [hp] at h
      have h2 : (applyDiffs existingCRDs m >>= fun finalMap =>
          Except.ok (finalMap.map fun kv => kv.2)) = Except.ok results := h
      cases ha : applyDiffs existingCRDs m with
      | error e =>
          rw [ha] at h2
          exact absurd h2 (by simp [Bind.bind, Except.bind])
      | ok final =>
          rw [ha] at h2
          have h3 : Except.ok (ε := PlanError) (final.map fun kv => kv.2) =
              Except.ok results := h2
          cases h3
          exact ⟨m, final, rfl, ha, rfl⟩

/-- Every entry of a successful planning run is keyed by its own
instruction's CRD name. -/
lemma entries_determine_name_key {goalCRDs existingCRDs : List CustomResourceDefinition}
    {patterns : List String} {m final : List (String × CRDInstallationInstruction)}
    (hp : planMap goalCRDs existingCRDs patterns = Except.ok m)
    (ha : applyDiffs existingCRDs m = Except.ok final) :
    ∀ kv ∈ final, kv.2.crd.name = kv.1 := by
  obtain ⟨m1, hs, hv⟩ := applyDiffs_ok_elim ha
  have hm : ∀ kv ∈ m, kv.2.crd.name = kv.1 := by
    unfold planMap at hp
    exact entries_filterCRDsByPatterns_ok _ hp
      (fun kv hkv => (entries_planBase goalCRDs existingCRDs kv hkv).1)
      (fun k ins hi => by rw [markByPatterns_crd]; exact hi)
  have hm1 : ∀ kv ∈ m1, kv.2.crd.name = kv.1 :=
    entries_setDiffResults _ hs hm fun k ins hi => hi
  exact entries_setDiffResults _ hv hm1 fun k ins hi => hi

lemma keys_determine {goalCRDs existingCRDs : List CustomResourceDefinition}
    {patterns : List String} {m final : List (String × CRDInstallationInstruction)}
    (hp : planMap goalCRDs existingCRDs patterns = Except.ok m)
    (ha : applyDiffs existingCRDs m = Except.ok final) :
    final.map Prod.fst = (seedInstructions goalCRDs).map Prod.fst := by
  obtain ⟨m1, hs, hv⟩ := applyDiffs_ok_elim ha
  have h1 := keys_setDiffResults hv
  have h2 := keys_setDiffResults hs
  have h3 : m.map Prod.fst = (seedInstructions goalCRDs).map Prod.fst := by
    unfold planMap at hp
    rw [keys_filterCRDsByPatterns_ok hp, keys_filterCRDsByExisting]
  rw [h1, h2, h3]

/-- C6 (amended).  On every successful run the decision set contains
exactly one instruction per distinct goal CRD name: its instruction
names are duplicate-free and coincide with the goal names as a set, and
when the goal names themselves are duplicate-free its size equals the
goal list's size. -/
theorem determine_one_instruction_per_goal_name
    (goalCRDs existingCRDs : List CustomResourceDefinition)
    (patterns : List String) (results : List CRDInstallationInstruction)
    (h : DetermineCRDsToInstallOrUpgrade goalCRDs existingCRDs patterns =
      Except.ok results) :
    (results.map fun i => i.crd.name).Nodup ∧
    (∀ n, (n ∈ results.map fun i => i.crd.name) ↔
      n ∈ goalCRDs.map CustomResourceDefinition.name) ∧
    ((goalCRDs.map CustomResourceDefinition.name).Nodup →
      results.length = goalCRDs.length) := by
  obtain ⟨m, final, hp, ha, hres⟩ := determine_ok_elim h
  have hnames : results.map (fun i => i.crd.name) = final.map Prod.fst := by
    rw [hres, List.map_map]
    apply List.map_congr_left
    intro kv hkv
    exact entries_determine_name_key hp ha kv hkv
  have hkeys := keys_determine hp ha
  have hnodup : (results.map fun i => i.crd.name).Nodup := by
    rw [hnames, hkeys]
    exact nodup_keys_seedInstructions goalCRDs
  have hmem : ∀ n, (n ∈ results.map fun i => i.crd.name) ↔
      n ∈ goalCRDs.map CustomResourceDefinition.name := by
    intro n
    rw [hnames, hkeys]
    exact keys_seedInstructions_mem goalCRDs n
  refine ⟨hnodup, hmem, ?_⟩
  intro hgoalnodup
  have hperm : (results.map fun i => i.crd.name).Perm
      (goalCRDs.map CustomResourceDefinition.name) :=
    (List.perm_ext_iff_of_nodup hnodup hgoalnodup).mpr hmem
  have := hperm.length_eq
  simpa using this

/-- The decision set of a successful two-CRD run (for the C6 witness). -/
def twoNameResults : List CRDInstallationInstruction :=
  match DetermineCRDsToInstallOrUpgrade [fooBarCRD, existingOneCRD] [] [] with
  | Except.ok res => res
  | Except.error _ => []

/-- Witness for C6: a successful run over two distinctly-named goal CRDs
yields exactly two instructions. -/
theorem determine_one_instruction_per_goal_name_witness :
    (DetermineCRDsToInstallOrUpgrade [fooBarCRD, existingOneCRD] [] []).toOption.map
        List.length = some 2 := by
  have hh : DetermineCRDsToInstallOrUpgrade [fooBarCRD, existingOneCRD] [] [] =
      Except.ok twoNameResults := rfl
  have hlen := (determine_one_instruction_per_goal_name
    [fooBarCRD, existingOneCRD] [] [] twoNameResults hh).2.2 (by decide)
  rw [hh]
  have h2 : twoNameResults.length = 2 := by simpa using hlen
  exact congrArg some h2

/-- C6.  The claim as stated is false on the code: a successful run over
a goal list holding two CRDs with the same name returns a single
instruction, because the decision map is keyed by name and the second
entry overwrites the first. -/
theorem determine_size_counterexample :
    (DetermineCRDsToInstallOrUpgrade [crdVersion1, crdVersion2] [] []).toOption.map
        List.length = some 1 ∧
    [crdVersion1, crdVersion2].length = 2 :=
  ⟨rfl, rfl⟩

end Crd

namespace Crd

/-- C5.  Within one planning pass every instruction's `DiffResult` is
`NoDifference` when diff classification starts, and the final value is
determined by: `VersionDifferent` if the name is in the version-mismatch
set (whether or not it is also in the spec-mismatch set — the version
loop runs second and silently overwrites), else `SpecDifferent` if it is
in the spec-mismatch set, else still `NoDifference`; no step ever resets
an escalated value back. -/
theorem diffResult_classification
    (goalCRDs existingCRDs : List CustomResourceDefinition)
    (patterns : List String)
    (m final : List (String × CRDInstallationInstruction))
    (hp : planMap goalCRDs existingCRDs patterns = Except.ok m)
    (ha : applyDiffs existingCRDs m = Except.ok final) :
    (∀ kv ∈ m, kv.2.diffResult = DiffResult.NoDifference) ∧
    (∀ k ins, mapLookup final k = some ins →
      ins.diffResult =
        if (mapLookup
            (FindNonMatchingCRDs existingCRDs (filteredGoalCRDs m) [VersionEqual])
            k).isSome then DiffResult.VersionDifferent
        else if (mapLookup
            (FindNonMatchingCRDs existingCRDs (filteredGoalCRDs m) [SpecEqual])
            k).isSome then DiffResult.SpecDifferent
        else DiffResult.NoDifference) := by
  have hm0 : ∀ kv ∈ m, kv.2.diffResult = DiffResult.NoDifference := by
    unfold planMap at hp
    exact entries_filterCRDsByPatterns_ok _ hp
      (entries_filterCRDsByExisting _ existingCRDs _
        (fun kv hkv => (entries_seedInstructions goalCRDs kv hkv).2.2.2)
        (fun crd k ins hi => by rw [markExisting_diffResult]; exact hi))
      (fun k ins hi => by rw [markByPatterns_diffResult]; exact hi)
  refine ⟨hm0, ?_⟩
  obtain ⟨m1, hs, hv⟩ := applyDiffs_ok_elim ha
  intro k ins hfin
  have hv' := setDiffResults_ok_lookup hv k
  have hs' := setDiffResults_ok_lookup hs k
  rw [hfin] at hv'
  cases hm1 : mapLookup m1 k with
  | none => rw [hm1] at hv'; simp at hv'
  | some ins1 =>
      rw [hm1] at hv'
      rw [hm1] at hs'
      cases hmm : mapLookup m k with
      | none => rw [hmm] at hs'; simp at hs'
      | some ins0 =>
          rw [hmm] at hs'
          have h0 : ins0.diffResult = DiffResult.NoDifference :=
            hm0 (k, ins0) (mapLookup_eq_some_mem hmm)
          have e1 : ins1 =
              if k ∈ (FindNonMatchingCRDs existingCRDs (filteredGoalCRDs m)
                  [SpecEqual]).map Prod.fst
              then { ins0 with diffResult := DiffResult.SpecDifferent } else ins0 :=
            Option.some.inj hs'
          have e2 : ins =
              if k ∈ (FindNonMatchingCRDs existingCRDs (filteredGoalCRDs m)
                  [VersionEqual]).map Prod.fst
              then { ins1 with diffResult := DiffResult.VersionDifferent } else ins1 :=
            Option.some.inj hv'
          by_cases hkv : k ∈ (FindNonMatchingCRDs existingCRDs (filteredGoalCRDs m)
              [VersionEqual]).map Prod.fst <;>
            by_cases hks : k ∈ (FindNonMatchingCRDs existingCRDs (filteredGoalCRDs m)
                [SpecEqual]).map Prod.fst <;>
              simp only [e2, e1, if_pos, if_neg, hkv, hks, if_true, if_false,
                mapLookup_isSome_iff_mem_keys] <;>
                simp [hkv, hks, h0]

/-- Existing CRD named "a", version label "1", spec payload "v1". -/
def c5ExistingCRD : CustomResourceDefinition :=
  { defaultCRD with
    name := "a"
    labels := some [(ServiceOperatorVersionLabel, "1")]
    spec := { defaultCRD.spec with versions := "v1" } }

/-- Goal CRD named "a", version label "2", spec payload "v2": both the
version and the spec differ from `c5ExistingCRD`. -/
def c5GoalCRD : CustomResourceDefinition :=
  { defaultCRD with
    name := "a"
    labels := some [(ServiceOperatorVersionLabel, "2")]
    spec := { defaultCRD.spec with versions := "v2" } }

/-- The planner map of the both-mismatch scenario. -/
def c5Plan : List (String × CRDInstallationInstruction) :=
  match planMap [c5GoalCRD] [c5ExistingCRD] [] with
  | Except.ok m => m
  | Except.error _ => []

/-- The classified map of the both-mismatch scenario. -/
def c5Final : List (String × CRDInstallationInstruction) :=
  match applyDiffs [c5ExistingCRD] c5Plan with
  | Except.ok m => m
  | Except.error _ => []

/-- The final instruction for "a" in the both-mismatch scenario. -/
def c5Ins : CRDInstallationInstruction :=
  (mapLookup c5Final "a").getD (newInstruction c5GoalCRD)

/-- Witness for C5: when a goal CRD differs from its existing
counterpart in both spec and version, the final classification is
`VersionDifferent` (the version loop overwrites the spec loop). -/
theorem diffResult_classification_witness :
    (mapLookup (FindNonMatchingCRDs [c5ExistingCRD] (filteredGoalCRDs c5Plan)
      [SpecEqual]) "a").isSome = true ∧
    (mapLookup (FindNonMatchingCRDs [c5ExistingCRD] (filteredGoalCRDs c5Plan)
      [VersionEqual]) "a").isSome = true ∧
    (mapLookup c5Final "a").map (fun i => i.diffResult) =
      some DiffResult.VersionDifferent := by
  refine ⟨rfl, rfl, ?_⟩
  have h := (diffResult_classification [c5GoalCRD] [c5ExistingCRD] [] c5Plan c5Final
    rfl rfl).2 "a" c5Ins rfl
  have h2 : c5Ins.diffResult = DiffResult.VersionDifferent := h
  exact congrArg some h2

end Crd

namespace Crd

/-- `filterInstallationInstructions` from manager.go: keeps the
instructions whose `ShouldApply` holds (the `log` flag only controls
logging). -/
def filterInstallationInstructions (instructions : List CRDInstallationInstruction)
    (log : Bool) : List CRDInstallationInstruction :=
  let _ := log
  instructions.filter ShouldApply

/-- The exit code computed by the `OnStoppedLeading` callback of
`NewLeaderElector`: 1 unless a leader context was stored and its `Done`
channel is already closed (cooperative release), in which case 0.  The
callback then calls `os.Exit` with this code unconditionally. -/
def onStoppedLeadingExitCode (leaderContext : Option Bool) : Nat :=
  match leaderContext with
  | none => 1
  | some done => if done then 0 else 1

/-- The errors `applyCRDs` can return. -/
inductive ApplyError where
  | listFailed
  | planFailed (e : PlanError)
  | applyFailed (name : String)
  deriving DecidableEq, Repr

/-- The observable outcome of one sequential run of `applyCRDs`:
the returned value, how many create-or-update calls were issued, whether
the election loop was started, whether the engine canceled the
leadership context before waiting on the released signal (cooperative
release), the exit code `OnStoppedLeading` called `os.Exit` with (when
the callback fired), and whether the engine reached its own restart
`os.Exit(0)` at the end of `applyCRDs`. -/
structure ApplyOutcome where
  result : Option ApplyError
  writeCalls : Nat
  electionStarted : Bool
  cooperativeRelease : Bool
  wrapperExitCode : Option Nat
  enginePodRestartExit : Bool
  deriving DecidableEq, Repr

/-- The write loop of `applyCRDs`: issue one create-or-update per
instruction, aborting the batch at the first failure; returns the number
of calls issued and the name of the failing definition, if any. -/
def runWriteLoop (writeOk : String → Bool) :
    List CRDInstallationInstruction → Nat → Nat × Option String
  | [], n => (n, none)
  | i :: rest, n =>
      if writeOk i.crd.name then runWriteLoop writeOk rest (n + 1)
      else (n + 1, some i.crd.name)

/-- `applyCRDs` from manager.go as a sequential trace over one run, with
the cluster interactions as parameters: `relist` is what `ListCRDs`
returns at the double-checked-locking recheck and `writeOk` whether each
create-or-update succeeds.  Control flow follows the source: empty
applicable subset returns success before touching the lease; with a
lease, acquire, re-list, re-plan, and return success (releasing
cooperatively, whereupon `OnStoppedLeading` fires and exits the process)
when the recheck finds nothing; otherwise write everything, release the
lease if held, and reach the engine's own restart `os.Exit(0)`.  The
leader context is stored by `OnStartedLeading` before the engine cancels
it, so a cooperative release always reaches the callback with a closed
context. -/
def applyCRDs (leaseConfigured : Bool)
    (goalCRDs : List CustomResourceDefinition)
    (instructions : List CRDInstallationInstruction)
    (relist : Except Unit (List CustomResourceDefinition))
    (patterns : List String)
    (writeOk : String → Bool) : ApplyOutcome :=
  let instructionsToApply := filterInstallationInstructions instructions true
  if instructionsToApply.isEmpty then
    { result := none
      writeCalls := 0
      electionStarted := false
      cooperativeRelease := false
      wrapperExitCode := none
      enginePodRestartExit := false }
  else
    if leaseConfigured then
      -- go Run(ctx); LeaseAcquired.Wait(); deferred cancel-and-wait-released
      match relist with
      | Except.error _ =>
          { result := some ApplyError.listFailed
            writeCalls := 0
            electionStarted := true
            cooperativeRelease := true
            wrapperExitCode := some (onStoppedLeadingExitCode (some true))
            enginePodRestartExit := false }
      | Except.ok existingCRDs =>
          match DetermineCRDsToInstallOrUpgrade goalCRDs existingCRDs patterns with
          | Except.error e =>
              { result := some (ApplyError.planFailed e)
                writeCalls := 0
                electionStarted := true
                cooperativeRelease := true
                wrapperExitCode := some (onStoppedLeadingExitCode (some true))
                enginePodRestartExit := false }
          | Except.ok instructions2 =>
              let instructionsToApply2 := filterInstallationInstructions instructions2 false
              if instructionsToApply2.isEmpty then
                -- the double-checked-locking recheck found nothing to do
                { result := none
                  writeCalls := 0
                  electionStarted := true
                  cooperativeRelease := true
                  wrapperExitCode := some (onStoppedLeadingExitCode (some true))
                  enginePodRestartExit := false }
              else
                match runWriteLoop writeOk instructionsToApply2 0 with
                | (n, some failed) =>
                    { result := some (ApplyError.applyFailed failed)
                      writeCalls := n
                      electionStarted := true
                      cooperativeRelease := true
                      wrapperExitCode := some (onStoppedLeadingExitCode (some true))
                      enginePodRestartExit := false }
                | (n, none) =>
                    { result := none
                      writeCalls := n
                      electionStarted := true
                      cooperativeRelease := true
                      wrapperExitCode := some (onStoppedLeadingExitCode (some true))
                      enginePodRestartExit := true }
    else
      match runWriteLoop writeOk instructionsToApply 0 with
      | (n, some failed) =>
          { result := some (ApplyError.applyFailed failed)
            writeCalls := n
            electionStarted := false
            cooperativeRelease := false
            wrapperExitCode := none
            enginePodRestartExit := false }
      | (n, none) =>
          { result := none
            writeCalls := n
            electionStarted := false
            cooperativeRelease := false
            wrapperExitCode := none
            enginePodRestartExit := true }

end Crd

namespace Crd

/-- An initially-applicable instruction (matched, spec-different) for the
recheck scenario. -/
def c2Instruction : CRDInstallationInstruction :=
  { crd := c5GoalCRD
    filterResult := FilterResult.MatchedExistingCRD
    filterReason := "initially applicable"
    diffResult := DiffResult.SpecDifferent }

/-- C2 (amended).  With a lease configured and a double-checked-locking
recheck that re-plans to zero applicable instructions, `applyCRDs`
returns success, performs zero write calls, releases leadership
cooperatively and never reaches its own restart termination — but the
leader-election wrapper's `OnStoppedLeading` callback still terminates
the process with success status (exit code 0) when the cooperative
release completes. -/
theorem apply_recheck_zero_releases_and_wrapper_exits
    (goalCRDs existingCRDs : List CustomResourceDefinition)
    (instructions : List CRDInstallationInstruction)
    (patterns : List String) (writeOk : String → Bool)
    (instructions2 : List CRDInstallationInstruction)
    (hne : (filterInstallationInstructions instructions true).isEmpty = false)
    (hplan : DetermineCRDsToInstallOrUpgrade goalCRDs existingCRDs patterns =
      Except.ok instructions2)
    (hzero : (filterInstallationInstructions instructions2 false).isEmpty = true) :
    applyCRDs true goalCRDs instructions (Except.ok existingCRDs) patterns writeOk =
      { result := none
        writeCalls := 0
        electionStarted := true
        cooperativeRelease := true
        wrapperExitCode := some 0
        enginePodRestartExit := false } := by
  unfold applyCRDs
  simp only [hne, Bool.false_eq_true, if_false, if_true, hplan, hzero,
    onStoppedLeadingExitCode, if_pos trivial]

/-- The replanned decision set of the recheck scenario: the cluster now
holds a CRD identical to the goal, so nothing is applicable. -/
def c2Replan : List CRDInstallationInstruction :=
  match DetermineCRDsToInstallOrUpgrade [c5GoalCRD] [c5GoalCRD] [] with
  | Except.ok r => r
  | Except.error _ => []

/-- Witness for C2: the recheck scenario at concrete inputs, via the
theorem. -/
theorem apply_recheck_zero_releases_and_wrapper_exits_witness :
    applyCRDs true [c5GoalCRD] [c2Instruction] (Except.ok [c5GoalCRD]) []
        (fun _ => true) =
      { result := none
        writeCalls := 0
        electionStarted := true
        cooperativeRelease := true
        wrapperExitCode := some 0
        enginePodRestartExit := false } :=
  apply_recheck_zero_releases_and_wrapper_exits [c5GoalCRD] [c5GoalCRD]
    [c2Instruction] [] (fun _ => true) c2Replan rfl rfl rfl

/-- C2.  The claim as stated is false on the code: in the
lease-configured, recheck-finds-zero scenario the engine does return
success with zero writes and a cooperative release and never reaches its
own restart exit, but the process IS terminated — `OnStoppedLeading`
unconditionally calls `os.Exit` when the cooperative release completes,
here with exit code 0. -/
theorem apply_recheck_zero_counterexample :
    (applyCRDs true [c5GoalCRD] [c2Instruction] (Except.ok [c5GoalCRD]) []
        (fun _ => true)).result = none ∧
    (applyCRDs true [c5GoalCRD] [c2Instruction] (Except.ok [c5GoalCRD]) []
        (fun _ => true)).writeCalls = 0 ∧
    (applyCRDs true [c5GoalCRD] [c2Instruction] (Except.ok [c5GoalCRD]) []
        (fun _ => true)).cooperativeRelease = true ∧
    (applyCRDs true [c5GoalCRD] [c2Instruction] (Except.ok [c5GoalCRD]) []
        (fun _ => true)).enginePodRestartExit = false ∧
    (applyCRDs true [c5GoalCRD] [c2Instruction] (Except.ok [c5GoalCRD]) []
        (fun _ => true)).wrapperExitCode = some 0 :=
  ⟨rfl, rfl, rfl, rfl, rfl⟩

end Crd

namespace Crd

/-- A pointer-level view of a CRD for the frame claim: in Go the spec's
conversion-webhook client config is reached through pointers, so a
struct copy of a CRD still shares the pointed-to `WebhookClientConfig`.
The heap of such records is explicit; the rest of the spec is carried by
value. -/
structure CRDRef where
  name : String
  labels : Option (List (String × String))
  clientConfigPtr : Option Nat
  specRest : String
  deriving DecidableEq, Repr

/-- The heap of `WebhookClientConfig` records; addresses are indices. -/
abbrev Heap := List WebhookClientConfig

/-- The zero-valued CRD that Go map indexing yields for a missing
existing entry (nil client-config pointer). -/
def defaultCRDRef : CRDRef :=
  { name := "", labels := none, clientConfigPtr := none, specRest := "" }

/-- A comparator over the pointer-level view: it may read and write the
heap (Go comparators receive struct copies but share pointees). -/
abbrev HComparator := CRDRef → CRDRef → Heap → Bool × Heap

/-- A comparator writes only through its two arguments' pointers: every
other address reads the same after it runs.  This is exactly what
`SpecEqual`-style comparators do when they strip fields in place. -/
def WritesOnlyArgs (c : HComparator) : Prop :=
  ∀ a b h i, a.clientConfigPtr ≠ some i → b.clientConfigPtr ≠ some i →
    ((c a b h).2)[i]? = h[i]?

/-- `DeepCopy` of a CRD: allocates a fresh cell holding a copy of the
pointed-to client config, so the copy shares nothing with the
original. -/
def deepCopyCRD (h : Heap) (crd : CRDRef) : Heap × CRDRef :=
  match crd.clientConfigPtr with
  | none => (h, crd)
  | some a =>
    match h[a]? with
    | none => (h, crd)
    | some cc => (h ++ [cc], { crd with clientConfigPtr := some h.length })

/-- The value a CRD's spec denotes under a heap: its by-value payload
plus the dereferenced client config. -/
def readSpec (crd : CRDRef) (h : Heap) : String × Option WebhookClientConfig :=
  (crd.specRest, crd.clientConfigPtr.bind fun a => h[a]?)

/-- `ignoreCABundle` on the pointer-level view: nils the CA bundle in
place, through the argument's pointer — mutating the pointee shared with
whoever else holds that pointer. -/
def ignoreCABundleH (a : CRDRef) (h : Heap) : Heap :=
  match a.clientConfigPtr with
  | none => h
  | some addr =>
    match h[addr]? with
    | none => h
    | some cc => h.set addr { cc with caBundle := none }

/-- `SpecEqual` on the pointer-level view: strips the CA bundle from
both sides in place, then compares the spec values. -/
def specEqualH (a b : CRDRef) (h : Heap) : Bool × Heap :=
  let h1 := ignoreCABundleH a h
  let h2 := ignoreCABundleH b h1
  (decide (readSpec a h2 = readSpec b h2), h2)

/-- The comparator loop of `FindMatchingCRDs` on the pointer-level view:
runs each comparator in turn on the (copied) pair, threading the heap,
stopping at the first failure. -/
def runComparators : List HComparator → CRDRef → CRDRef → Heap → Bool × Heap
  | [], _, _, h => (true, h)
  | c :: cs, a, b, h =>
      match c a b h with
      | (ok, h') => if ok then runComparators cs a b h' else (false, h')

/-- The existing-CRD lookup map of `FindMatchingCRDs` (pointer view). -/
def buildExistingMapH (existing : List CRDRef) : List (String × CRDRef) :=
  existing.foldl (fun m crd => mapInsert m crd.name crd) []

/-- One iteration of `FindMatchingCRDs` on the pointer-level view: look
up the existing entry for the goal entry's name (zero value when
absent), deep-copy both, run the comparators on the copies, and keep the
goal entry when all hold. -/
def findMatchingStep (existingCRDs : List (String × CRDRef))
    (comparators : List HComparator)
    (acc : List (String × CRDRef) × Heap) (goalCRD : CRDRef) :
    List (String × CRDRef) × Heap :=
  let existingCopied :=
    deepCopyCRD acc.2 ((mapLookup existingCRDs goalCRD.name).getD defaultCRDRef)
  let goalCopied := deepCopyCRD existingCopied.1 goalCRD
  let run := runComparators comparators existingCopied.2 goalCopied.2 goalCopied.1
  if run.1 then (mapInsert acc.1 goalCRD.name goalCopied.2, run.2) else (acc.1, run.2)

/-- `FindMatchingCRDs` on the pointer-level view, mirroring the source:
fold the per-goal-entry iteration over the goal list. -/
def findMatchingCRDsH (existing goal : List CRDRef)
    (comparators : List HComparator) (h : Heap) :
    List (String × CRDRef) × Heap :=
  goal.foldl (findMatchingStep (buildExistingMapH existing) comparators) ([], h)

/-- `FindNonMatchingCRDs` on the pointer-level view: inverts every
comparator (keeping its heap effects) and calls the matching variant. -/
def findNonMatchingCRDsH (existing goal : List CRDRef)
    (comparators : List HComparator) (h : Heap) :
    List (String × CRDRef) × Heap :=
  let invertedComparators := comparators.map fun c => fun a b h =>
    match c a b h with
    | (ok, h') => (!ok, h')
  findMatchingCRDsH existing goal invertedComparators h

end Crd

namespace Crd
lemma deepCopyCRD_heap_frame (h : Heap) (crd : CRDRef) (i : Nat) (hi : i < h.length) :
    ((deepCopyCRD h crd).1)[i]? = h[i]? := by
  unfold deepCopyCRD
  cases hptr : crd.clientConfigPtr with
  | none => simp [hptr]
  | some a =>
      cases hg : h[a]? with
      | none => simp [hptr, hg]
      | some cc =>
          simp only [hptr, hg]
          exact List.getElem?_append_left hi

lemma deepCopyCRD_ptr_ge (h : Heap) (crd : CRDRef) (j : Nat)
    (hp : ((deepCopyCRD h crd).2).clientConfigPtr = some j) : h.length ≤ j := by
  obtain ⟨nm, lb, ptr, sr⟩ := crd
  cases ptr with
  | none => simp [deepCopyCRD] at hp
  | some a =>
      cases hg : h[a]? with
      | none =>
          simp only [deepCopyCRD, hg] at hp
          cases hp
          exact List.getElem?_eq_none_iff.mp hg
      | some cc =>
          simp only [deepCopyCRD, hg] at hp
          cases hp
          exact Nat.le_refl _

lemma runComparators_frame (cs : List HComparator) (a b : CRDRef) (i : Nat)
    (ha : a.clientConfigPtr ≠ some i) (hb : b.clientConfigPtr ≠ some i) :
    ∀ (h : Heap), (∀ c ∈ cs, WritesOnlyArgs c) →
      ((runComparators cs a b h).2)[i]? = h[i]? := by
  induction cs with
  | nil => intro h _; rfl
  | cons c cs ih =>
      intro h hc
      rcases hcc : c a b h with ⟨ok, h'⟩
      have hfr : h'[i]? = h[i]? := by
        have hco := hc c (List.mem_cons_self c cs) a b h i ha hb
        rw [hcc] at hco
        exact hco
      have hcs : ∀ c' ∈ cs, WritesOnlyArgs c' :=
        fun c' hc' => hc c' (List.mem_cons_of_mem c hc')
      cases ok with
      | true =>
          have hstep : runComparators (c :: cs) a b h = runComparators cs a b h' := by
            simp [runComparators, hcc]
          rw [hstep, ih h' hcs, hfr]
      | false =>
          have hstep : runComparators (c :: cs) a b h = (false, h') := by
            simp [runComparators, hcc]
          rw [hstep]
          exact hfr

lemma len_ge_of_frame (h' h₀ : Heap) (hf : ∀ i < h₀.length, h'[i]? = h₀[i]?) :
    h₀.length ≤ h'.length := by
  by_cases h0 : h₀.length = 0
  · omega
  · have hi : h₀.length - 1 < h₀.length := by omega
    have h2 : h₀[h₀.length - 1]? ≠ none := by
      rw [Ne, List.getElem?_eq_none_iff]
      omega
    have h3 : h'[h₀.length - 1]? ≠ none := by
      rw [hf _ hi]
      exact h2
    rw [Ne, List.getElem?_eq_none_iff] at h3
    omega

end Crd

namespace Crd

/-- One `FindMatchingCRDs` iteration leaves every address of the
original heap unchanged: the deep copies are allocated at fresh
addresses, so comparators that write only through their arguments'
pointers never touch a pre-existing cell. -/
lemma findMatchingStep_snd_frame (existingCRDs : List (String × CRDRef))
    (comparators : List HComparator)
    (hc : ∀ c ∈ comparators, WritesOnlyArgs c)
    (h₀ : Heap) (p : List (String × CRDRef) × Heap) (g : CRDRef)
    (hinv : ∀ i < h₀.length, p.2[i]? = h₀[i]?) :
    ∀ i < h₀.length, ((findMatchingStep existingCRDs comparators p g).2)[i]? = h₀[i]? := by
  intro i hi
  have hlen : h₀.length ≤ p.2.length := len_ge_of_frame p.2 h₀ hinv
  rcases hd1 : deepCopyCRD p.2 ((mapLookup existingCRDs g.name).getD defaultCRDRef)
    with ⟨h1, eCopy⟩
  have hh1 : ∀ j < h₀.length, h1[j]? = h₀[j]? := by
    intro j hj
    have hf := deepCopyCRD_heap_frame p.2
      ((mapLookup existingCRDs g.name).getD defaultCRDRef) j (by omega)
    rw [hd1] at hf
    rw [hf]
    exact hinv j hj
  have hl1 : h₀.length ≤ h1.length := len_ge_of_frame h1 h₀ hh1
  rcases hd2 : deepCopyCRD h1 g with ⟨h2, gCopy⟩
  have hh2 : ∀ j < h₀.length, h2[j]? = h₀[j]? := by
    intro j hj
    have hf := deepCopyCRD_heap_frame h1 g j (by omega)
    rw [hd2] at hf
    rw [hf]
    exact hh1 j hj
  have hpe : ∀ j < h₀.length, eCopy.clientConfigPtr ≠ some j := by
    intro j hj
    cases hp : eCopy.clientConfigPtr with
    | none => simp
    | some j' =>
        have hj' : p.2.length ≤ j' := deepCopyCRD_ptr_ge p.2 _ j' (by rw [hd1]; exact hp)
        intro hcon
        cases hcon
        omega
  have hpg : ∀ j < h₀.length, gCopy.clientConfigPtr ≠ some j := by
    intro j hj
    cases hp : gCopy.clientConfigPtr with
    | none => simp
    | some j' =>
        have hj' : h1.length ≤ j' := deepCopyCRD_ptr_ge h1 g j' (by rw [hd2]; exact hp)
        intro hcon
        cases hcon
        omega
  rcases hrc : runComparators comparators eCopy gCopy h2 with ⟨eq, h3⟩
  have hh3 : h3[i]? = h₀[i]? := by
    have hf := runComparators_frame comparators eCopy gCopy i (hpe i hi) (hpg i hi) h2 hc
    rw [hrc] at hf
    rw [hf]
    exact hh2 i hi
  unfold findMatchingStep
  dsimp only
  rw [hd1]
  dsimp only
  rw [hd2]
  dsimp only
  rw [hrc]
  dsimp only
  cases eq with
  | true => simpa using hh3
  | false => simpa using hh3

/-- The fold of `FindMatchingCRDs` preserves every original address. -/
lemma findMatching_foldl_frame (goal : List CRDRef)
    (existingCRDs : List (String × CRDRef))
    (comparators : List HComparator)
    (hc : ∀ c ∈ comparators, WritesOnlyArgs c)
    (h₀ : Heap) :
    ∀ (p : List (String × CRDRef) × Heap),
      (∀ i < h₀.length, p.2[i]? = h₀[i]?) →
      ∀ i < h₀.length,
        ((goal.foldl (findMatchingStep existingCRDs comparators) p).2)[i]? = h₀[i]? := by
  induction goal with
  | nil => intro p hinv i hi; exact hinv i hi
  | cons g rest ih =>
      intro p hinv i hi
      simp only [List.foldl_cons]
      exact ih _ (findMatchingStep_snd_frame existingCRDs comparators hc h₀ p g hinv) i hi

lemma writesOnlyArgs_invert {c : HComparator} (hc : WritesOnlyArgs c) :
    WritesOnlyArgs (fun a b h =>
      match c a b h with
      | (ok, h') => (!ok, h')) := by
  intro a b h i ha hb
  rcases hr : c a b h with ⟨ok, h'⟩
  have hco := hc a b h i ha hb
  rw [hr] at hco
  simpa [hr] using hco

lemma ignoreCABundleH_frame (a : CRDRef) (h : Heap) (i : Nat)
    (ha : a.clientConfigPtr ≠ some i) :
    (ignoreCABundleH a h)[i]? = h[i]? := by
  unfold ignoreCABundleH
  cases hp : a.clientConfigPtr with
  | none => rfl
  | some addr =>
      cases hg : h[addr]? with
      | none => simp [hg]
      | some cc =>
          have hne : addr ≠ i := by
            intro hcon
            rw [hp, hcon] at ha
            exact ha rfl
          simp only [hg]
          exact List.getElem?_set_ne hne

/-- `SpecEqual` (pointer view) writes only through its two arguments'
pointers. -/
lemma specEqualH_writesOnlyArgs : WritesOnlyArgs specEqualH := by
  intro a b h i ha hb
  show (ignoreCABundleH b (ignoreCABundleH a h))[i]? = h[i]?
  rw [ignoreCABundleH_frame b _ i hb, ignoreCABundleH_frame a h i ha]

/-- C9.  `FindMatchingCRDs` and `FindNonMatchingCRDs` never mutate the
caller's CRDs: with comparators that write only through their arguments'
pointers (as `SpecEqual` does when it strips the CA bundle in place —
final conjunct), every heap cell the caller's `existing` and `goal`
entries point to reads the same after the call, because each pair is
deep-copied to fresh addresses before any comparator runs. -/
theorem findMatchingCRDs_no_caller_mutation
    (existing goal : List CRDRef) (comparators : List HComparator) (h : Heap)
    (hc : ∀ c ∈ comparators, WritesOnlyArgs c) :
    (∀ i < h.length,
      ((findMatchingCRDsH existing goal comparators h).2)[i]? = h[i]?) ∧
    (∀ i < h.length,
      ((findNonMatchingCRDsH existing goal comparators h).2)[i]? = h[i]?) ∧
    (∀ crd : CRDRef, ∀ a, crd.clientConfigPtr = some a → a < h.length →
      readSpec crd ((findMatchingCRDsH existing goal comparators h).2) =
        readSpec crd h) ∧
    WritesOnlyArgs specEqualH := by
  have hmain : ∀ i < h.length,
      ((findMatchingCRDsH existing goal comparators h).2)[i]? = h[i]? := by
    intro i hi
    exact findMatching_foldl_frame goal (buildExistingMapH existing) comparators hc h
      ([], h) (fun j hj => rfl) i hi
  have hnon : ∀ i < h.length,
      ((findNonMatchingCRDsH existing goal comparators h).2)[i]? = h[i]? := by
    intro i hi
    refine findMatching_foldl_frame goal (buildExistingMapH existing) _ ?_ h
      ([], h) (fun j hj => rfl) i hi
    intro c' hc'
    rcases List.mem_map.mp hc' with ⟨c, hcmem, hceq⟩
    subst hceq
    exact writesOnlyArgs_invert (hc c hcmem)
  refine ⟨hmain, hnon, ?_, specEqualH_writesOnlyArgs⟩
  intro crd a hp ha
  unfold readSpec
  rw [hp]
  have hval := hmain a ha
  simp [hval]

/-- A client config carrying a CA bundle, shared (address 0) by the
existing and the goal CRD below. -/
def sharedCC : WebhookClientConfig :=
  { url := none, service := none, caBundle := some "CA" }

/-- An existing CRD pointing at the shared client config. -/
def sharedExistingRef : CRDRef :=
  { name := "a", labels := none, clientConfigPtr := some 0, specRest := "s" }

/-- A goal CRD pointing at the same shared client config. -/
def sharedGoalRef : CRDRef :=
  { name := "a", labels := none, clientConfigPtr := some 0, specRest := "s" }

example :
    (ignoreCABundleH sharedExistingRef [sharedCC])[0]? =
      some { sharedCC with caBundle := none } := rfl

/-- Witness for C9: running `FindMatchingCRDs` with the CA-stripping
`SpecEqual` comparator over CRDs sharing one pointed-to client config
leaves the caller's cell — CA bundle included — untouched. -/
theorem findMatchingCRDs_no_caller_mutation_witness :
    ((findMatchingCRDsH [sharedExistingRef] [sharedGoalRef] [specEqualH]
        [sharedCC]).2)[0]? = some sharedCC := by
  have hfr := (findMatchingCRDs_no_caller_mutation [sharedExistingRef] [sharedGoalRef]
    [specEqualH] [sharedCC]
    (by
      intro c hcm
      simp only [List.mem_singleton] at hcm
      subst hcm
      exact specEqualH_writesOnlyArgs)).1 0 (by simp)
  rw [hfr]
  rfl

end Crd
